import Mathlib

/-! # FlySight viewer: plot surface (`dataplot.cpp`) and metric catalog (`plotvalue.h`)

A shallow embedding of `DataPlot` (mouse handlers, wheel zoom, value-axis
auto-ranging) and of `PlotValue` with its 19 subclasses.

Conventions of the embedding.

* C++ `double` is an arbitrary linearly ordered field `K` (exact arithmetic,
  no NaN, no rounding); concrete examples are evaluated at `ℚ`.
* Qt and QCustomPlot are not part of the repository.  `QPoint`, `QRect`,
  `QCPRange`, `QVariant`, `QColor` and `QSettings` are small models of the
  members the code calls; `QCPAxis::pixelToCoord` and `exp` are parameters.
* `MainWindow` (the shell) and `DataPoint` are declared in headers that are
  not among the sources; what the code reads from them is a parameter.
* Calls on `mMainWindow` and Qt signals are recorded, in program order, as a
  list of `Intent`s.  Repaint requests (`update()`, `replot()`) and the
  forwarding of an event to the `QCustomPlot` base class are not recorded.
-/

namespace FlySight

/-! ## Metric catalog (`plotvalue.h`) -/

/-- The enumeration `PlotValue::Units`. -/
inductive Units where
  | Metric
  | Imperial
  deriving DecidableEq, Repr

/-- The quantities the static accessors of `DataPoint` return for one
sample (`DataPoint::elevation(dp)`, ...).  The class itself is declared in
`datapoint.h`, which is not among the sources, so a sample is identified
with the tuple of its accessor values. -/
structure DataPoint (K : Type) where
  elevation : K
  verticalSpeed : K
  horizontalSpeed : K
  totalSpeed : K
  diveAngle : K
  curvature : K
  glideRatio : K
  horizontalAccuracy : K
  verticalAccuracy : K
  speedAccuracy : K
  numberOfSatellites : K
  time : K
  distance2D : K
  distance3D : K
  acceleration : K
  totalEnergy : K
  energyRate : K
  liftCoefficient : K
  dragCoefficient : K

/-- The 19 concrete subclasses of `PlotValue`, in the order of the header. -/
inductive PlotClass where
  | PlotElevation
  | PlotVerticalSpeed
  | PlotHorizontalSpeed
  | PlotTotalSpeed
  | PlotDiveAngle
  | PlotCurvature
  | PlotGlideRatio
  | PlotHorizontalAccuracy
  | PlotVerticalAccuracy
  | PlotSpeedAccuracy
  | PlotNumberOfSatellites
  | PlotTime
  | PlotDistance2D
  | PlotDistance3D
  | PlotAcceleration
  | PlotTotalEnergy
  | PlotEnergyRate
  | PlotLift
  | PlotDrag
  deriving DecidableEq, Repr

/-- Qt's `QColor`, as far as the catalog uses it: the invalid colour of the
default constructor, or an RGB triple. -/
inductive QColor where
  | invalid
  | rgb (r g b : Nat)
  deriving DecidableEq, Repr

namespace Qt

/-- `Qt::black`. -/
def black : QColor := .rgb 0 0 0
/-- `Qt::green`. -/
def green : QColor := .rgb 0 255 0
/-- `Qt::red`. -/
def red : QColor := .rgb 255 0 0
/-- `Qt::blue`. -/
def blue : QColor := .rgb 0 0 255
/-- `Qt::magenta`. -/
def magenta : QColor := .rgb 255 0 255
/-- `Qt::darkYellow`. -/
def darkYellow : QColor := .rgb 128 128 0
/-- `Qt::darkCyan`. -/
def darkCyan : QColor := .rgb 0 128 128
/-- `Qt::darkRed`. -/
def darkRed : QColor := .rgb 128 0 0
/-- `Qt::darkGreen`. -/
def darkGreen : QColor := .rgb 0 128 0
/-- `Qt::darkBlue`. -/
def darkBlue : QColor := .rgb 0 0 128
/-- `Qt::darkMagenta`. -/
def darkMagenta : QColor := .rgb 128 0 128

end Qt

/-- The macro `METERS_TO_FEET`. -/
def METERS_TO_FEET {K : Type} [LinearOrderedField K] : K := 3.28084
/-- The macro `MPS_TO_MPH`. -/
def MPS_TO_MPH {K : Type} [LinearOrderedField K] : K := 2.23694
/-- The macro `MPS_TO_KMH`. -/
def MPS_TO_KMH {K : Type} [LinearOrderedField K] : K := 3.6

/-- The state of a `PlotValue` object: its dynamic class and the three
private members.  `mAxis` is not initialised by the constructor; `none`
stands for the handle before `addAxis` has assigned one. -/
structure PlotValue where
  cls : PlotClass
  mVisible : Bool
  mColor : QColor
  mAxis : Option Nat
  deriving DecidableEq, Repr

namespace PlotClass

/-- First argument each subclass constructor passes to
`PlotValue(bool visible, QColor color)`. -/
def defaultVisible : PlotClass → Bool
  | PlotElevation => true
  | _ => false

/-- Second argument each subclass constructor passes to
`PlotValue(bool visible, QColor color)`. -/
def defaultColor : PlotClass → QColor
  | PlotElevation => Qt.black
  | PlotVerticalSpeed => Qt.green
  | PlotHorizontalSpeed => Qt.red
  | PlotTotalSpeed => Qt.blue
  | PlotDiveAngle => Qt.magenta
  | PlotCurvature => Qt.darkYellow
  | PlotGlideRatio => Qt.darkCyan
  | PlotHorizontalAccuracy => Qt.darkRed
  | PlotVerticalAccuracy => Qt.darkGreen
  | PlotSpeedAccuracy => Qt.darkBlue
  | PlotNumberOfSatellites => Qt.darkMagenta
  | PlotTime => Qt.black
  | PlotDistance2D => Qt.black
  | PlotDistance3D => Qt.black
  | PlotAcceleration => Qt.darkRed
  | PlotTotalEnergy => Qt.darkGreen
  | PlotEnergyRate => Qt.darkBlue
  | PlotLift => Qt.darkGreen
  | PlotDrag => Qt.darkBlue

/-- The virtual `value(const DataPoint &dp, Units units)` of each subclass. -/
def value {K : Type} [LinearOrderedField K] (c : PlotClass) (dp : DataPoint K)
    (units : Units) : K :=
  match c with
  | PlotElevation =>
    if units = Units.Metric then dp.elevation else dp.elevation * METERS_TO_FEET
  | PlotVerticalSpeed =>
    if units = Units.Metric then dp.verticalSpeed * MPS_TO_KMH
    else dp.verticalSpeed * MPS_TO_MPH
  | PlotHorizontalSpeed =>
    if units = Units.Metric then dp.horizontalSpeed * MPS_TO_KMH
    else dp.horizontalSpeed * MPS_TO_MPH
  | PlotTotalSpeed =>
    if units = Units.Metric then dp.totalSpeed * MPS_TO_KMH
    else dp.totalSpeed * MPS_TO_MPH
  | PlotDiveAngle => dp.diveAngle
  | PlotCurvature => dp.curvature
  | PlotGlideRatio => dp.glideRatio
  | PlotHorizontalAccuracy =>
    if units = Units.Metric then dp.horizontalAccuracy
    else dp.horizontalAccuracy * METERS_TO_FEET
  | PlotVerticalAccuracy =>
    if units = Units.Metric then dp.verticalAccuracy
    else dp.verticalAccuracy * METERS_TO_FEET
  | PlotSpeedAccuracy =>
    if units = Units.Metric then dp.speedAccuracy * MPS_TO_KMH
    else dp.speedAccuracy * MPS_TO_MPH
  | PlotNumberOfSatellites => dp.numberOfSatellites
  | PlotTime => dp.time
  | PlotDistance2D =>
    if units = Units.Metric then dp.distance2D else dp.distance2D * METERS_TO_FEET
  | PlotDistance3D =>
    if units = Units.Metric then dp.distance3D else dp.distance3D * METERS_TO_FEET
  | PlotAcceleration => dp.acceleration
  | PlotTotalEnergy => dp.totalEnergy
  | PlotEnergyRate => dp.energyRate
  | PlotLift => dp.liftCoefficient
  | PlotDrag => dp.dragCoefficient

/-- The name `metaObject()->className()` returns for an object of the
class; every subclass carries `Q_OBJECT`, so it is the subclass name. -/
def className : PlotClass → String
  | PlotElevation => "PlotElevation"
  | PlotVerticalSpeed => "PlotVerticalSpeed"
  | PlotHorizontalSpeed => "PlotHorizontalSpeed"
  | PlotTotalSpeed => "PlotTotalSpeed"
  | PlotDiveAngle => "PlotDiveAngle"
  | PlotCurvature => "PlotCurvature"
  | PlotGlideRatio => "PlotGlideRatio"
  | PlotHorizontalAccuracy => "PlotHorizontalAccuracy"
  | PlotVerticalAccuracy => "PlotVerticalAccuracy"
  | PlotSpeedAccuracy => "PlotSpeedAccuracy"
  | PlotNumberOfSatellites => "PlotNumberOfSatellites"
  | PlotTime => "PlotTime"
  | PlotDistance2D => "PlotDistance2D"
  | PlotDistance3D => "PlotDistance3D"
  | PlotAcceleration => "PlotAcceleration"
  | PlotTotalEnergy => "PlotTotalEnergy"
  | PlotEnergyRate => "PlotEnergyRate"
  | PlotLift => "PlotLift"
  | PlotDrag => "PlotDrag"

end PlotClass

namespace PlotValue

/-- A freshly constructed object of class `c`: `PlotValue(visible, color)`
with the arguments of the subclass constructor. -/
def new (c : PlotClass) : PlotValue :=
  { cls := c, mVisible := c.defaultVisible, mColor := c.defaultColor, mAxis := none }

/-- `PlotValue::visible`. -/
def visible (m : PlotValue) : Bool := m.mVisible

/-- `PlotValue::setVisible`. -/
def setVisible (m : PlotValue) (visible : Bool) : PlotValue :=
  { m with mVisible := visible }

/-- `PlotValue::color`. -/
def color (m : PlotValue) : QColor := m.mColor

/-- `PlotValue::setColor`. -/
def setColor (m : PlotValue) (color : QColor) : PlotValue :=
  { m with mColor := color }

/-- The virtual call `value(dp, units)` on an object. -/
def value {K : Type} [LinearOrderedField K] (m : PlotValue) (dp : DataPoint K)
    (units : Units) : K :=
  m.cls.value dp units

/-- `PlotValue::key`. -/
def key (m : PlotValue) : String := m.cls.className

end PlotValue

/-! ## Persisted settings (`PlotValue::readSettings`, `PlotValue::writeSettings`) -/

/-- Qt's `QVariant`, restricted to the two payload types this code stores. -/
inductive QVariant where
  | bool (b : Bool)
  | color (c : QColor)
  deriving DecidableEq, Repr

namespace QVariant

/-- `QVariant::toBool`: the payload of a boolean variant, `false` for a
variant that does not convert to `bool`. -/
def toBool : QVariant → Bool
  | bool b => b
  | color _ => false

/-- `QVariant::value<QColor>()`: the payload of a colour variant, the
default-constructed (invalid) colour for a variant that does not convert. -/
def toColor : QVariant → QColor
  | color c => c
  | bool _ => QColor.invalid

end QVariant

/-- The store behind `QSettings("FlySight", "Viewer")`: a finite map from
(group, key) to a variant, kept as an association list in which the first
entry of a key is the current one. -/
abbrev QSettings := List ((String × String) × QVariant)

namespace QSettings

/-- `QSettings::value(key, defaultValue)` inside `beginGroup(group)`. -/
def value (st : QSettings) (group key : String) (defaultValue : QVariant) : QVariant :=
  match st.lookup (group, key) with
  | some v => v
  | none => defaultValue

/-- `QSettings::setValue(key, value)` inside `beginGroup(group)`. -/
def setValue (st : QSettings) (group key : String) (v : QVariant) : QSettings :=
  ((group, key), v) :: st

/-- `QSettings::contains(key)` inside `beginGroup(group)`. -/
def contains (st : QSettings) (group key : String) : Bool :=
  (st.lookup (group, key)).isSome

end QSettings

namespace PlotValue

/-- The group `readSettings` and `writeSettings` open:
`"plotValue/" + key()`. -/
def settingsGroup (m : PlotValue) : String := "plotValue/" ++ m.key

/-- `PlotValue::readSettings`, reading from the store `settings`. -/
def readSettings (m : PlotValue) (settings : QSettings) : PlotValue :=
  let group := m.settingsGroup
  let mVisible := (settings.value group "visible" (QVariant.bool m.mVisible)).toBool
  let mColor := (settings.value group "color" (QVariant.color m.mColor)).toColor
  { m with mVisible := mVisible, mColor := mColor }

/-- `PlotValue::writeSettings`: the store after the two `setValue` calls. -/
def writeSettings (m : PlotValue) (settings : QSettings) : QSettings :=
  let group := m.settingsGroup
  let settings := settings.setValue group "visible" (QVariant.bool m.mVisible)
  settings.setValue group "color" (QVariant.color m.mColor)

end PlotValue

/-! ## Qt and QCustomPlot value types used by `DataPlot` -/

/-- Qt's `QPoint`. -/
structure QPoint where
  x : Int
  y : Int
  deriving DecidableEq, Repr

/-- Qt's `QRect`, stored as its two corners; `x2`, `y2` are the last
column and row that belong to the rectangle. -/
structure QRect where
  x1 : Int
  y1 : Int
  x2 : Int
  y2 : Int
  deriving DecidableEq, Repr

/-- `QRect::contains(const QPoint &)` (edges included), as Qt computes it. -/
def QRect.contains (r : QRect) (p : QPoint) : Bool :=
  let l := if r.x2 < r.x1 - 1 then r.x2 else r.x1
  let rr := if r.x2 < r.x1 - 1 then r.x1 else r.x2
  if p.x < l ∨ p.x > rr then false
  else
    let t := if r.y2 < r.y1 - 1 then r.y2 else r.y1
    let b := if r.y2 < r.y1 - 1 then r.y1 else r.y2
    if p.y < t ∨ p.y > b then false else true

/-- QCustomPlot's `QCPRange`: the pair of bounds handed to the
constructor, kept as given.  Every range the handlers build from a window
with `lower ≤ upper` has its bounds in order, so a constructor that swaps
misordered bounds would build the same ranges. -/
structure QCPRange (K : Type) where
  lower : K
  upper : K
  deriving DecidableEq, Repr

/-- `QCPRange::contains`: `value >= lower && value <= upper`. -/
def QCPRange.contains {K : Type} [LinearOrderedField K] (r : QCPRange K) (value : K) : Bool :=
  decide (value ≥ r.lower) && decide (value ≤ r.upper)

/-- Qt's `qMin`: `(a < b) ? a : b`. -/
def qMin {K : Type} [LinearOrderedField K] (a b : K) : K := if a < b then a else b

/-- Qt's `qMax`: `(a < b) ? b : a`. -/
def qMax {K : Type} [LinearOrderedField K] (a b : K) : K := if a < b then b else a

/-! ## The shell as `DataPlot` sees it -/

/-- Modelled from the spec: the enumeration `MainWindow::Tool` of
`mainwindow.h`, which is not among the sources; the spec lists the tools
as Pan, Zoom, Measure, Zero, Ground. -/
inductive Tool where
  | Pan
  | Zoom
  | Measure
  | Zero
  | Ground
  deriving DecidableEq, Repr

/-- What `DataPlot` hands to its collaborators: the three calls on
`mMainWindow` and the three Qt signals. -/
inductive Intent (K : Type) where
  | setRange (range : QCPRange K)
  | setZero (x : K)
  | setGround (x : K)
  | measure (xBegin xEnd : K)
  | mark (x : K)
  | clear
  deriving DecidableEq, Repr

/-- The intents that carry a window for the time axis or a cursor mark or
clear, as opposed to set-zero, set-ground and measure. -/
def Intent.isWindowOrCursor {K : Type} : Intent K → Bool
  | Intent.setRange _ => true
  | Intent.mark _ => true
  | Intent.clear => true
  | _ => false

/-- What `DataPlot` reads from `mMainWindow` while it handles one event.
`onSetRange r` is the shell's reaction to `mMainWindow->setRange(r)`:
`some r1` when it calls `DataPlot::setRange(r1)` back before returning,
`none` when it leaves the plot alone. -/
structure MainWindow (K : Type) where
  tool : Tool
  units : Units
  xValue : PlotClass
  yValues : List PlotValue
  data : List (DataPoint K)
  onSetRange : QCPRange K → Option (QCPRange K)

/-- What the `QCustomPlot` base class and the C library provide:
`axisRect()->rect()`, `xAxis->pixelToCoord` (a function of the current
range of the axis) and `exp`. -/
structure PlotContext (K : Type) where
  rect : QRect
  pixelToCoord : QCPRange K → Int → K
  exp : K → K

/-- The members of `DataPlot` the handlers read and write, with the
range of the inherited `xAxis`. -/
structure DataPlot (K : Type) where
  m_dragging : Bool
  m_beginPos : QPoint
  m_cursorPos : QPoint
  xRange : QCPRange K
  deriving DecidableEq, Repr

/-! ## `DataPlot` (`dataplot.cpp`) -/

namespace DataPlot

variable {K : Type} [LinearOrderedField K]

/-- The state the constructor leaves: `m_dragging(false)`, both points
default-constructed; `range` is the initial range of `xAxis`. -/
def init (range : QCPRange K) : DataPlot K :=
  { m_dragging := false, m_beginPos := ⟨0, 0⟩, m_cursorPos := ⟨0, 0⟩, xRange := range }

/-- `DataPlot::setRange`, as far as the time axis is concerned:
`xAxis->setRange(range)`.  The value-axis ranges the same call sets are
computed by `updateYRanges`. -/
def setRange (s : DataPlot K) (range : QCPRange K) : DataPlot K :=
  { s with xRange := range }

/-- The plot after the call `mMainWindow->setRange(range)` has returned. -/
def afterShellSetRange (mw : MainWindow K) (s : DataPlot K) (range : QCPRange K) :
    DataPlot K :=
  match mw.onSetRange range with
  | some r => s.setRange r
  | none => s

/-- `DataPlot::mousePressEvent`. -/
def mousePressEvent (ctx : PlotContext K) (s : DataPlot K) (pos : QPoint) : DataPlot K :=
  if ctx.rect.contains pos then
    { s with m_beginPos := pos, m_dragging := true }
  else s

/-- `DataPlot::mouseReleaseEvent`: the state it leaves and what it emits. -/
def mouseReleaseEvent (ctx : PlotContext K) (mw : MainWindow K) (s : DataPlot K)
    (endPos : QPoint) : DataPlot K × List (Intent K) :=
  let tool := mw.tool
  let (s1, out1) :=
    if s.m_dragging && tool == Tool.Zoom then
      let range : QCPRange K :=
        ⟨qMin (ctx.pixelToCoord s.xRange s.m_beginPos.x) (ctx.pixelToCoord s.xRange endPos.x),
         qMax (ctx.pixelToCoord s.xRange s.m_beginPos.x) (ctx.pixelToCoord s.xRange endPos.x)⟩
      (afterShellSetRange mw s range, [Intent.setRange range])
    else (s, [])
  let out2 :=
    if s1.m_dragging && tool == Tool.Zero then
      [Intent.setZero (ctx.pixelToCoord s1.xRange endPos.x)]
    else []
  let out3 :=
    if s1.m_dragging && tool == Tool.Ground then
      [Intent.setGround (ctx.pixelToCoord s1.xRange endPos.x)]
    else []
  let s2 := if s1.m_dragging then { s1 with m_dragging := false } else s1
  (s2, out1 ++ out2 ++ out3)

/-- `DataPlot::mouseMoveEvent`: the state it leaves and what it emits. -/
def mouseMoveEvent (ctx : PlotContext K) (mw : MainWindow K) (s : DataPlot K)
    (pos : QPoint) : DataPlot K × List (Intent K) :=
  let s0 := { s with m_cursorPos := pos }
  let tool := mw.tool
  let (s1, out1) :=
    if s0.m_dragging && tool == Tool.Pan then
      let range := s0.xRange
      let diff := ctx.pixelToCoord s0.xRange s0.m_beginPos.x
        - ctx.pixelToCoord s0.xRange s0.m_cursorPos.x
      let range : QCPRange K := ⟨range.lower + diff, range.upper + diff⟩
      let s01 := afterShellSetRange mw s0 range
      ({ s01 with m_beginPos := s01.m_cursorPos }, [Intent.setRange range])
    else (s0, [])
  let out2 :=
    if ctx.rect.contains pos then
      if s1.m_dragging && tool == Tool.Measure then
        [Intent.measure (ctx.pixelToCoord s1.xRange s1.m_beginPos.x)
          (ctx.pixelToCoord s1.xRange s1.m_cursorPos.x)]
      else
        [Intent.mark (ctx.pixelToCoord s1.xRange s1.m_cursorPos.x)]
    else [Intent.clear]
  (s1, out1 ++ out2)

/-- The window `wheelEvent` builds from the current range, the coordinate
`x` under the cursor and the multiplier. -/
def wheelRange (range : QCPRange K) (x multiplier : K) : QCPRange K :=
  ⟨x + (range.lower - x) * multiplier, x + (range.upper - x) * multiplier⟩

/-- `DataPlot::wheelEvent`; `deltaY` is `event->angleDelta().y()`. -/
def wheelEvent (ctx : PlotContext K) (mw : MainWindow K) (s : DataPlot K)
    (pos : QPoint) (deltaY : Int) : DataPlot K × List (Intent K) :=
  if ctx.rect.contains pos then
    let multiplier := ctx.exp (((-deltaY : Int) : K) / 500)
    let x := ctx.pixelToCoord s.xRange pos.x
    let range := wheelRange s.xRange x multiplier
    (afterShellSetRange mw s range, [Intent.setRange range])
  else (s, [])

/-- `DataPlot::leaveEvent`. -/
def leaveEvent (s : DataPlot K) : DataPlot K × List (Intent K) :=
  (s, [Intent.clear])

/-- One step of the inner loop of `updateYRanges`.  The accumulator is
`none` while `first` is true and `some (yMin, yMax)` afterwards. -/
def scanStep (range : QCPRange K) (xv yv : DataPoint K → K) (acc : Option (K × K))
    (dp : DataPoint K) : Option (K × K) :=
  if range.contains (xv dp) then
    let y := yv dp
    match acc with
    | none => some (y, y)
    | some (yMin, yMax) =>
      let yMin := if y < yMin then y else yMin
      let yMax := if y > yMax then y else yMax
      some (yMin, yMax)
  else acc

/-- The inner loop of `updateYRanges` for the metric `m`: `none` when
`first` is still true at the end, else `some (yMin, yMax)`. -/
def yRange (mw : MainWindow K) (range : QCPRange K) (m : PlotValue) : Option (K × K) :=
  mw.data.foldl
    (scanStep range (fun dp => mw.xValue.value dp mw.units) (fun dp => m.value dp mw.units))
    none

end DataPlot

/-- One call `axisRect()->axis(QCPAxis::atLeft, axis)->setRange(lower, upper)`. -/
structure AxisWrite (K : Type) where
  axis : Nat
  lower : K
  upper : K
  deriving DecidableEq, Repr

/-- An input event of the plot widget. -/
inductive Event where
  | press (pos : QPoint)
  | release (pos : QPoint)
  | move (pos : QPoint)
  | wheel (pos : QPoint) (deltaY : Int)
  | leave
  deriving DecidableEq, Repr

namespace DataPlot

variable {K : Type} [LinearOrderedField K]

/-- The outer loop of `updateYRanges` over the metrics still to visit,
with the axis counter `k`: the `setRange` calls it makes, in order. -/
def updateYRangesFrom (mw : MainWindow K) (range : QCPRange K) :
    List PlotValue → Nat → List (AxisWrite K)
  | [], _ => []
  | m :: rest, k =>
    if !m.visible then updateYRangesFrom mw range rest k
    else
      match yRange mw range m with
      | some (yMin, yMax) => ⟨k, yMin, yMax⟩ :: updateYRangesFrom mw range rest (k + 1)
      | none => updateYRangesFrom mw range rest k

/-- `DataPlot::updateYRanges`: the `setRange` calls on the left axes. -/
def updateYRanges (mw : MainWindow K) (s : DataPlot K) : List (AxisWrite K) :=
  updateYRangesFrom mw s.xRange mw.yValues 0

/-- Dispatch of one event to its handler; `mw` is the shell at the time
the event is delivered. -/
def handle (ctx : PlotContext K) (mw : MainWindow K) (s : DataPlot K) :
    Event → DataPlot K × List (Intent K)
  | Event.press pos => (mousePressEvent ctx s pos, [])
  | Event.release pos => mouseReleaseEvent ctx mw s pos
  | Event.move pos => mouseMoveEvent ctx mw s pos
  | Event.wheel pos deltaY => wheelEvent ctx mw s pos deltaY
  | Event.leave => leaveEvent s

/-- A sequence of events, each with the shell as it is when the event is
delivered: the final state and everything emitted, in order. -/
def run (ctx : PlotContext K) (s : DataPlot K) :
    List (MainWindow K × Event) → DataPlot K × List (Intent K)
  | [] => (s, [])
  | (mw, ev) :: rest =>
    let (s1, out1) := handle ctx mw s ev
    let (s2, out2) := run ctx s1 rest
    (s2, out1 ++ out2)

end DataPlot

/-! ## The linear axis mapping and concrete scenarios -/

/-- QCustomPlot's `QCPAxis::pixelToCoord` for a horizontal, linear,
non-reversed axis whose rectangle starts at pixel `left` and is `width`
pixels wide. -/
def linearPixelToCoord {K : Type} [LinearOrderedField K] (left width : K)
    (range : QCPRange K) (px : Int) : K :=
  ((px : K) - left) / width * (range.upper - range.lower) + range.lower

/-- QCustomPlot's `QCPAxis::coordToPixel` for the same axis. -/
def linearCoordToPixel {K : Type} [LinearOrderedField K] (left width : K)
    (range : QCPRange K) (x : K) : K :=
  (x - range.lower) / (range.upper - range.lower) * width + left

namespace Scenario

/-- A sample taken at time `t` whose elevation is `e`; every other
quantity is zero. -/
def sample (t e : ℚ) : DataPoint ℚ :=
  { elevation := e, verticalSpeed := 0, horizontalSpeed := 0, totalSpeed := 0,
    diveAngle := 0, curvature := 0, glideRatio := 0, horizontalAccuracy := 0,
    verticalAccuracy := 0, speedAccuracy := 0, numberOfSatellites := 0, time := t,
    distance2D := 0, distance3D := 0, acceleration := 0, totalEnergy := 0,
    energyRate := 0, liftCoefficient := 0, dragCoefficient := 0 }

/-- Samples at t = 1, 5, 9 with elevations 100, 200, 150. -/
def samples : List (DataPoint ℚ) := [sample 1 100, sample 5 200, sample 9 150]

/-- A shell with the given tool and metrics: metric units, time on the x
axis, the three samples, and every requested window applied at once. -/
def shell (tool : Tool) (yValues : List PlotValue) : MainWindow ℚ :=
  { tool := tool, units := Units.Metric, xValue := PlotClass.PlotTime,
    yValues := yValues, data := samples, onSetRange := fun r => some r }

/-- A plotting rectangle of 200 by 100 pixels at the origin with the
linear axis mapping; `exp` is replaced by its second-order Taylor
polynomial, which is exact at 0. -/
def ctx : PlotContext ℚ :=
  { rect := ⟨0, 0, 199, 99⟩,
    pixelToCoord := linearPixelToCoord 0 200,
    exp := fun x => 1 + x + x * x / 2 }

/-- An idle plot showing the window `[lower, upper]`. -/
def idle (lower upper : ℚ) : DataPlot ℚ := DataPlot.init ⟨lower, upper⟩

/-- A plot in a drag anchored at `anchor`, showing `[lower, upper]`. -/
def dragging (anchor : QPoint) (lower upper : ℚ) : DataPlot ℚ :=
  { m_dragging := true, m_beginPos := anchor, m_cursorPos := anchor,
    xRange := ⟨lower, upper⟩ }

end Scenario

/-! ## Titles, axis creation and classes of intents and events -/

namespace PlotClass

/-- The virtual `title()` of each subclass; `tr` is the identity, as it is
when no translation is installed. -/
def title : PlotClass → String
  | PlotElevation => "Elevation"
  | PlotVerticalSpeed => "Vertical Speed"
  | PlotHorizontalSpeed => "Horizontal Speed"
  | PlotTotalSpeed => "Total Speed"
  | PlotDiveAngle => "Dive Angle"
  | PlotCurvature => "Dive Rate"
  | PlotGlideRatio => "Glide Ratio"
  | PlotHorizontalAccuracy => "Horizontal Accuracy"
  | PlotVerticalAccuracy => "Vertical Accuracy"
  | PlotSpeedAccuracy => "Speed Accuracy"
  | PlotNumberOfSatellites => "Number of Satellites"
  | PlotTime => "Time"
  | PlotDistance2D => "Horizontal Distance"
  | PlotDistance3D => "Total Distance"
  | PlotAcceleration => "Acceleration"
  | PlotTotalEnergy => "Total Energy"
  | PlotEnergyRate => "Energy Rate"
  | PlotLift => "Lift Coefficient"
  | PlotDrag => "Drag Coefficient"

/-- The virtual `title(Units units)` of each subclass. -/
def titleUnits (c : PlotClass) (units : Units) : String :=
  match c with
  | PlotElevation =>
    if units = Units.Metric then title PlotElevation ++ " (m)"
    else title PlotElevation ++ " (ft)"
  | PlotVerticalSpeed =>
    if units = Units.Metric then title PlotVerticalSpeed ++ " (km/h)"
    else title PlotVerticalSpeed ++ " (mph)"
  | PlotHorizontalSpeed =>
    if units = Units.Metric then title PlotHorizontalSpeed ++ " (km/h)"
    else title PlotHorizontalSpeed ++ " (mph)"
  | PlotTotalSpeed =>
    if units = Units.Metric then title PlotTotalSpeed ++ " (km/h)"
    else title PlotTotalSpeed ++ " (mph)"
  | PlotDiveAngle => title PlotDiveAngle ++ " (deg)"
  | PlotCurvature => title PlotCurvature ++ " (deg/s)"
  | PlotGlideRatio => title PlotGlideRatio
  | PlotHorizontalAccuracy =>
    if units = Units.Metric then title PlotHorizontalAccuracy ++ " (m)"
    else title PlotHorizontalAccuracy ++ " (ft)"
  | PlotVerticalAccuracy =>
    if units = Units.Metric then title PlotVerticalAccuracy ++ " (m)"
    else title PlotVerticalAccuracy ++ " (ft)"
  | PlotSpeedAccuracy =>
    if units = Units.Metric then title PlotSpeedAccuracy ++ " (km/h)"
    else title PlotSpeedAccuracy ++ " (mph)"
  | PlotNumberOfSatellites => title PlotNumberOfSatellites
  | PlotTime => title PlotTime ++ " (s)"
  | PlotDistance2D =>
    if units = Units.Metric then title PlotDistance2D ++ " (m)"
    else title PlotDistance2D ++ " (ft)"
  | PlotDistance3D =>
    if units = Units.Metric then title PlotDistance3D ++ " (m)"
    else title PlotDistance3D ++ " (ft)"
  | PlotAcceleration => title PlotAcceleration ++ " (m/s^2)"
  | PlotTotalEnergy => title PlotTotalEnergy ++ " (J/kg)"
  | PlotEnergyRate => title PlotEnergyRate ++ " (J/kg/s)"
  | PlotLift => title PlotLift
  | PlotDrag => title PlotDrag

/-- The static accessor of `DataPoint` that the `value` of each subclass
calls: the raw quantity of the sample before any unit conversion. -/
def quantity {K : Type} (c : PlotClass) (dp : DataPoint K) : K :=
  match c with
  | PlotElevation => dp.elevation
  | PlotVerticalSpeed => dp.verticalSpeed
  | PlotHorizontalSpeed => dp.horizontalSpeed
  | PlotTotalSpeed => dp.totalSpeed
  | PlotDiveAngle => dp.diveAngle
  | PlotCurvature => dp.curvature
  | PlotGlideRatio => dp.glideRatio
  | PlotHorizontalAccuracy => dp.horizontalAccuracy
  | PlotVerticalAccuracy => dp.verticalAccuracy
  | PlotSpeedAccuracy => dp.speedAccuracy
  | PlotNumberOfSatellites => dp.numberOfSatellites
  | PlotTime => dp.time
  | PlotDistance2D => dp.distance2D
  | PlotDistance3D => dp.distance3D
  | PlotAcceleration => dp.acceleration
  | PlotTotalEnergy => dp.totalEnergy
  | PlotEnergyRate => dp.energyRate
  | PlotLift => dp.liftCoefficient
  | PlotDrag => dp.dragCoefficient

end PlotClass

/-- What `addAxis` sets on the axis it has created. -/
structure AxisStyle where
  labelColor : QColor
  tickLabelColor : QColor
  basePen : QColor
  tickPen : QColor
  subTickPen : QColor
  label : String
  deriving DecidableEq, Repr

namespace PlotValue

/-- `PlotValue::addAxis`; `axis` is the handle
`plot->axisRect()->addAxis(QCPAxis::atLeft)` returns.  The result is the
object with `mAxis` assigned and the style given to the new axis. -/
def addAxis (m : PlotValue) (axis : Nat) (units : Units) : PlotValue × AxisStyle :=
  ({ m with mAxis := some axis },
   { labelColor := m.color, tickLabelColor := m.color, basePen := m.color,
     tickPen := m.color, subTickPen := m.color, label := m.cls.titleUnits units })

/-- `PlotValue::axis`. -/
def axis (m : PlotValue) : Option Nat := m.mAxis

/-- The coupling the data model asks for: the metric is visible exactly
when it has a value axis assigned. -/
def coupled (m : PlotValue) : Bool := m.mVisible == m.mAxis.isSome

end PlotValue

/-- The cursor intents: cursor-mark and cursor-clear. -/
def Intent.isCursor {K : Type} : Intent K → Bool
  | Intent.mark _ => true
  | Intent.clear => true
  | _ => false

/-- The three intents of which a move emits one: measure, cursor-mark and
cursor-clear. -/
def Intent.isCursorOrMeasure {K : Type} : Intent K → Bool
  | Intent.measure _ _ => true
  | Intent.mark _ => true
  | Intent.clear => true
  | _ => false

/-- The events of a sequence that holds no press inside the plotting
rectangle `rect` (and no wheel event): presses outside it, moves, releases
and leave events. -/
def Event.startsNoGesture (rect : QRect) : Event → Bool
  | Event.press pos => !rect.contains pos
  | Event.release _ => true
  | Event.move _ => true
  | Event.leave => true
  | Event.wheel _ _ => false

/-! ## Auxiliary facts -/

section Aux

variable {K : Type} [LinearOrderedField K]

theorem qMin_eq_min (a b : K) : qMin a b = min a b := by
  unfold qMin
  split_ifs with h
  · exact (min_eq_left h.le).symm
  · exact (min_eq_right (not_lt.mp h)).symm

theorem qMax_eq_max (a b : K) : qMax a b = max a b := by
  unfold qMax
  split_ifs with h
  · exact (max_eq_right h.le).symm
  · exact (max_eq_left (not_lt.mp h)).symm

theorem QCPRange.contains_iff (r : QCPRange K) (v : K) :
    r.contains v = true ↔ r.lower ≤ v ∧ v ≤ r.upper := by
  simp [QCPRange.contains]

theorem isLeast_foldl_min (vs : List K) (a : K) :
    IsLeast {x | x = a ∨ x ∈ vs} (vs.foldl min a) := by
  induction vs generalizing a with
  | nil => exact ⟨Or.inl rfl, fun x hx => by rcases hx with rfl | h; exact le_rfl; simp at h⟩
  | cons v vs ih =>
    obtain ⟨hmem, hle⟩ := ih (min a v)
    refine ⟨?_, ?_⟩
    · rcases hmem with h | h
      · rcases min_choice a v with h1 | h1
        · left; rw [List.foldl_cons, h, h1]
        · right; rw [List.foldl_cons, h, h1]; exact List.mem_cons_self _ _
      · right; exact List.mem_cons_of_mem _ h
    · intro x hx
      rcases hx with rfl | h
      · exact (hle (Or.inl rfl)).trans (min_le_left _ _)
      · rcases List.mem_cons.mp h with rfl | h2
        · exact (hle (Or.inl rfl)).trans (min_le_right _ _)
        · exact hle (Or.inr h2)

theorem isGreatest_foldl_max (vs : List K) (a : K) :
    IsGreatest {x | x = a ∨ x ∈ vs} (vs.foldl max a) := by
  induction vs generalizing a with
  | nil => exact ⟨Or.inl rfl, fun x hx => by rcases hx with rfl | h; exact le_rfl; simp at h⟩
  | cons v vs ih =>
    obtain ⟨hmem, hle⟩ := ih (max a v)
    refine ⟨?_, ?_⟩
    · rcases hmem with h | h
      · rcases max_choice a v with h1 | h1
        · left; rw [List.foldl_cons, h, h1]
        · right; rw [List.foldl_cons, h, h1]; exact List.mem_cons_self _ _
      · right; exact List.mem_cons_of_mem _ h
    · intro x hx
      rcases hx with rfl | h
      · exact (le_max_left _ _).trans (hle (Or.inl rfl))
      · rcases List.mem_cons.mp h with rfl | h2
        · exact (le_max_right _ _).trans (hle (Or.inl rfl))
        · exact hle (Or.inr h2)

/-- The values of `yv` at the samples of `l` that the window contains. -/
theorem mem_filter_map_iff (range : QCPRange K) (xv yv : DataPoint K → K)
    (l : List (DataPoint K)) (v : K) :
    v ∈ (l.filter (fun dp => range.contains (xv dp))).map yv ↔
      ∃ dp ∈ l, range.lower ≤ xv dp ∧ xv dp ≤ range.upper ∧ yv dp = v := by
  simp only [List.mem_map, List.mem_filter, QCPRange.contains_iff]
  constructor
  · rintro ⟨dp, ⟨h1, h2, h3⟩, h4⟩
    exact ⟨dp, h1, h2, h3, h4⟩
  · rintro ⟨dp, h1, h2, h3, h4⟩
    exact ⟨dp, ⟨h1, h2, h3⟩, h4⟩

theorem foldl_scanStep_some (range : QCPRange K) (xv yv : DataPoint K → K)
    (l : List (DataPoint K)) (a b : K) :
    l.foldl (DataPlot.scanStep range xv yv) (some (a, b)) =
      some (((l.filter (fun dp => range.contains (xv dp))).map yv).foldl min a,
        ((l.filter (fun dp => range.contains (xv dp))).map yv).foldl max b) := by
  induction l generalizing a b with
  | nil => rfl
  | cons dp l ih =>
    rw [List.foldl_cons]
    by_cases h : range.contains (xv dp) = true
    · have hmin : (if yv dp < a then yv dp else a) = min a (yv dp) := by
        rw [min_comm]; exact (qMin_eq_min (yv dp) a)
      have hmax : (if yv dp > b then yv dp else b) = max b (yv dp) := by
        exact (qMax_eq_max b (yv dp))
      simp only [DataPlot.scanStep, h, if_true, hmin, hmax, List.filter_cons_of_pos,
        List.map_cons, List.foldl_cons]
      exact ih _ _
    · simp only [DataPlot.scanStep, h, Bool.false_eq_true, if_false]
      have hf : (dp :: l).filter (fun dp => range.contains (xv dp)) =
          l.filter (fun dp => range.contains (xv dp)) := List.filter_cons_of_neg h
      rw [hf]
      exact ih _ _

theorem foldl_scanStep_none (range : QCPRange K) (xv yv : DataPoint K → K)
    (l : List (DataPoint K)) :
    l.foldl (DataPlot.scanStep range xv yv) none =
      match (l.filter (fun dp => range.contains (xv dp))).map yv with
      | [] => none
      | v :: vs => some (vs.foldl min v, vs.foldl max v) := by
  induction l with
  | nil => rfl
  | cons dp l ih =>
    rw [List.foldl_cons]
    by_cases h : range.contains (xv dp) = true
    · simp only [DataPlot.scanStep, h, if_true, List.filter_cons_of_pos, List.map_cons]
      exact foldl_scanStep_some range xv yv l _ _
    · simp only [DataPlot.scanStep, h, Bool.false_eq_true, if_false]
      have hf : (dp :: l).filter (fun dp => range.contains (xv dp)) =
          l.filter (fun dp => range.contains (xv dp)) := List.filter_cons_of_neg h
      rw [hf]
      exact ih

/-- The inner loop ends with `first` still true exactly when the window
contains no sample. -/
theorem yRange_eq_none_iff (mw : MainWindow K) (range : QCPRange K) (m : PlotValue) :
    DataPlot.yRange mw range m = none ↔
      ¬ ∃ dp ∈ mw.data, range.lower ≤ mw.xValue.value dp mw.units ∧
        mw.xValue.value dp mw.units ≤ range.upper := by
  unfold DataPlot.yRange
  rw [foldl_scanStep_none]
  constructor
  · intro h ⟨dp, hdp, h1, h2⟩
    have hv : m.value dp mw.units ∈ (mw.data.filter (fun dp =>
        range.contains (mw.xValue.value dp mw.units))).map (fun dp => m.value dp mw.units) :=
      (mem_filter_map_iff range _ _ mw.data _).mpr ⟨dp, hdp, h1, h2, rfl⟩
    revert h hv
    cases (mw.data.filter (fun dp => range.contains (mw.xValue.value dp mw.units))).map
      (fun dp => m.value dp mw.units) with
    | nil => intro _ hv; simp at hv
    | cons v vs => intro h _; simp at h
  · intro h
    have hv : ∀ v, v ∉ (mw.data.filter (fun dp =>
        range.contains (mw.xValue.value dp mw.units))).map (fun dp => m.value dp mw.units) := by
      intro v hv
      obtain ⟨dp, hdp, h1, h2, _⟩ := (mem_filter_map_iff range _ _ mw.data _).mp hv
      exact h ⟨dp, hdp, h1, h2⟩
    revert hv
    cases (mw.data.filter (fun dp => range.contains (mw.xValue.value dp mw.units))).map
      (fun dp => m.value dp mw.units) with
    | nil => intro _; rfl
    | cons v vs => intro hv; exact absurd (List.mem_cons_self v vs) (hv v)

/-- When the inner loop ends with a range, its bounds are the least and
the greatest value of the metric over the samples inside the window. -/
theorem yRange_eq_some (mw : MainWindow K) (range : QCPRange K) (m : PlotValue)
    (lo hi : K) (h : DataPlot.yRange mw range m = some (lo, hi)) :
    IsLeast {v | ∃ dp ∈ mw.data, range.lower ≤ mw.xValue.value dp mw.units ∧
        mw.xValue.value dp mw.units ≤ range.upper ∧ m.value dp mw.units = v} lo ∧
    IsGreatest {v | ∃ dp ∈ mw.data, range.lower ≤ mw.xValue.value dp mw.units ∧
        mw.xValue.value dp mw.units ≤ range.upper ∧ m.value dp mw.units = v} hi := by
  unfold DataPlot.yRange at h
  rw [foldl_scanStep_none] at h
  have hset : ∀ v, v ∈ (mw.data.filter (fun dp =>
      range.contains (mw.xValue.value dp mw.units))).map (fun dp => m.value dp mw.units) ↔
      ∃ dp ∈ mw.data, range.lower ≤ mw.xValue.value dp mw.units ∧
        mw.xValue.value dp mw.units ≤ range.upper ∧ m.value dp mw.units = v :=
    fun v => mem_filter_map_iff range _ _ mw.data v
  revert h hset
  cases (mw.data.filter (fun dp => range.contains (mw.xValue.value dp mw.units))).map
    (fun dp => m.value dp mw.units) with
  | nil => intro h; simp at h
  | cons v vs =>
    intro h hset
    simp only [Option.some.injEq, Prod.mk.injEq] at h
    obtain ⟨rfl, rfl⟩ := h
    have hS : {x | ∃ dp ∈ mw.data, range.lower ≤ mw.xValue.value dp mw.units ∧
        mw.xValue.value dp mw.units ≤ range.upper ∧ m.value dp mw.units = x}
        = {x | x = v ∨ x ∈ vs} := by
      ext x
      simp only [Set.mem_setOf_eq]
      rw [← hset x, List.mem_cons]
    rw [hS]
    exact ⟨isLeast_foldl_min vs v, isGreatest_foldl_max vs v⟩

/-- With a sample inside the window, the outer loop writes the range of
the `i`-th visible metric to the axis `k + i`. -/
theorem updateYRangesFrom_get (mw : MainWindow K) (range : QCPRange K)
    (hne : ∃ dp ∈ mw.data, range.lower ≤ mw.xValue.value dp mw.units ∧
      mw.xValue.value dp mw.units ≤ range.upper)
    (ms : List PlotValue) (k i : Nat) (m : PlotValue)
    (hm : (ms.filter PlotValue.visible)[i]? = some m) :
    ∃ lo hi, DataPlot.yRange mw range m = some (lo, hi) ∧
      (DataPlot.updateYRangesFrom mw range ms k)[i]? = some ⟨k + i, lo, hi⟩ := by
  induction ms generalizing k i with
  | nil => simp at hm
  | cons m0 ms ih =>
    by_cases hv : m0.visible = true
    · have hf : (m0 :: ms).filter PlotValue.visible = m0 :: ms.filter PlotValue.visible :=
        List.filter_cons_of_pos hv
      rw [hf] at hm
      have hsome : ∃ lo hi, DataPlot.yRange mw range m0 = some (lo, hi) := by
        cases hr : DataPlot.yRange mw range m0 with
        | none => exact absurd hne ((yRange_eq_none_iff mw range m0).mp hr)
        | some r => exact ⟨r.1, r.2, rfl⟩
      obtain ⟨lo0, hi0, h0⟩ := hsome
      have hu : DataPlot.updateYRangesFrom mw range (m0 :: ms) k =
          ⟨k, lo0, hi0⟩ :: DataPlot.updateYRangesFrom mw range ms (k + 1) := by
        simp [DataPlot.updateYRangesFrom, hv, h0]
      rw [hu]
      cases i with
      | zero =>
        simp only [List.getElem?_cons_zero, Option.some.injEq] at hm
        subst hm
        exact ⟨lo0, hi0, h0, by simp⟩
      | succ j =>
        simp only [List.getElem?_cons_succ] at hm
        obtain ⟨lo, hi, h1, h2⟩ := ih (k + 1) j hm
        refine ⟨lo, hi, h1, ?_⟩
        simp only [List.getElem?_cons_succ]
        rw [h2]
        have : k + 1 + j = k + (j + 1) := by omega
        rw [this]
    · have hf : (m0 :: ms).filter PlotValue.visible = ms.filter PlotValue.visible :=
        List.filter_cons_of_neg hv
      rw [hf] at hm
      have hu : DataPlot.updateYRangesFrom mw range (m0 :: ms) k =
          DataPlot.updateYRangesFrom mw range ms k := by
        simp [DataPlot.updateYRangesFrom, hv]
      rw [hu]
      exact ih k i hm

/-- With a sample inside the window, the outer loop makes one call per
visible metric. -/
theorem updateYRangesFrom_length (mw : MainWindow K) (range : QCPRange K)
    (hne : ∃ dp ∈ mw.data, range.lower ≤ mw.xValue.value dp mw.units ∧
      mw.xValue.value dp mw.units ≤ range.upper)
    (ms : List PlotValue) (k : Nat) :
    (DataPlot.updateYRangesFrom mw range ms k).length =
      (ms.filter PlotValue.visible).length := by
  induction ms generalizing k with
  | nil => rfl
  | cons m0 ms ih =>
    by_cases hv : m0.visible = true
    · have hf : (m0 :: ms).filter PlotValue.visible = m0 :: ms.filter PlotValue.visible :=
        List.filter_cons_of_pos hv
      cases hr : DataPlot.yRange mw range m0 with
      | none => exact absurd hne ((yRange_eq_none_iff mw range m0).mp hr)
      | some r =>
        simp [DataPlot.updateYRangesFrom, hv, hr, hf, ih (k + 1)]
    · have hf : (m0 :: ms).filter PlotValue.visible = ms.filter PlotValue.visible :=
        List.filter_cons_of_neg hv
      simp [DataPlot.updateYRangesFrom, hv, hf, ih k]

/-- Without a sample inside the window the outer loop makes no call. -/
theorem updateYRangesFrom_empty (mw : MainWindow K) (range : QCPRange K)
    (hno : ¬ ∃ dp ∈ mw.data, range.lower ≤ mw.xValue.value dp mw.units ∧
      mw.xValue.value dp mw.units ≤ range.upper)
    (ms : List PlotValue) (k : Nat) :
    DataPlot.updateYRangesFrom mw range ms k = [] := by
  induction ms generalizing k with
  | nil => rfl
  | cons m0 ms ih =>
    have hr : DataPlot.yRange mw range m0 = none := (yRange_eq_none_iff mw range m0).mpr hno
    by_cases hv : m0.visible = true
    · simp [DataPlot.updateYRangesFrom, hv, hr, ih k]
    · simp [DataPlot.updateYRangesFrom, hv, ih k]

/-- The axis numbers of the calls are consecutive, starting at `k`. -/
theorem updateYRangesFrom_axis (mw : MainWindow K) (range : QCPRange K)
    (ms : List PlotValue) (k : Nat) :
    (DataPlot.updateYRangesFrom mw range ms k).map AxisWrite.axis =
      List.range' k (DataPlot.updateYRangesFrom mw range ms k).length := by
  induction ms generalizing k with
  | nil => rfl
  | cons m0 ms ih =>
    by_cases hv : m0.visible = true
    · cases hr : DataPlot.yRange mw range m0 with
      | none => simpa [DataPlot.updateYRangesFrom, hv, hr] using ih k
      | some r =>
        simp [DataPlot.updateYRangesFrom, hv, hr, ih (k + 1), List.range'_succ]
    · simpa [DataPlot.updateYRangesFrom, hv] using ih k

end Aux

/-! ## Value-axis auto-ranging -/

section Ranging

variable {K : Type} [LinearOrderedField K]

/-- C1 (range scan correctness).  For the `i`-th visible metric `m` of the
registry: if some sample has its x value inside the window, bounds
included, then the inner loop of `updateYRanges` ends with a range
`(lo, hi)`, that range is what `updateYRanges` sets (its `i`-th call), and
`lo` and `hi` are the least and the greatest `m.value(sample, units)` over
exactly the samples inside the window; if no sample is inside the window,
the loop ends without a range and `updateYRanges` sets nothing. -/
theorem updateYRanges_range_scan (mw : MainWindow K) (s : DataPlot K) (i : Nat)
    (m : PlotValue) (hm : (mw.yValues.filter PlotValue.visible)[i]? = some m) :
    ((∃ dp ∈ mw.data, s.xRange.lower ≤ mw.xValue.value dp mw.units ∧
        mw.xValue.value dp mw.units ≤ s.xRange.upper) →
      ∃ lo hi, DataPlot.yRange mw s.xRange m = some (lo, hi) ∧
        (DataPlot.updateYRanges mw s)[i]? = some ⟨i, lo, hi⟩ ∧
        IsLeast {v | ∃ dp ∈ mw.data, s.xRange.lower ≤ mw.xValue.value dp mw.units ∧
          mw.xValue.value dp mw.units ≤ s.xRange.upper ∧ m.value dp mw.units = v} lo ∧
        IsGreatest {v | ∃ dp ∈ mw.data, s.xRange.lower ≤ mw.xValue.value dp mw.units ∧
          mw.xValue.value dp mw.units ≤ s.xRange.upper ∧ m.value dp mw.units = v} hi) ∧
    ((¬ ∃ dp ∈ mw.data, s.xRange.lower ≤ mw.xValue.value dp mw.units ∧
        mw.xValue.value dp mw.units ≤ s.xRange.upper) →
      DataPlot.yRange mw s.xRange m = none ∧ DataPlot.updateYRanges mw s = []) := by
  constructor
  · intro hne
    obtain ⟨lo, hi, h1, h2⟩ := updateYRangesFrom_get mw s.xRange hne mw.yValues 0 i m hm
    obtain ⟨h3, h4⟩ := yRange_eq_some mw s.xRange m lo hi h1
    refine ⟨lo, hi, h1, ?_, h3, h4⟩
    rw [Nat.zero_add] at h2
    exact h2
  · intro hno
    exact ⟨(yRange_eq_none_iff mw s.xRange m).mpr hno,
      updateYRangesFrom_empty mw s.xRange hno mw.yValues 0⟩

/-- Scenario A and B of C1: on the window [0, 10] the samples at t = 1, 5, 9
with values 100, 200, 150 give the range (100, 200); on the window [20, 30]
nothing is set. -/
theorem updateYRanges_range_scan_witness :
    DataPlot.updateYRanges (Scenario.shell Tool.Pan [PlotValue.new PlotClass.PlotElevation])
        (Scenario.idle 0 10) = [⟨0, 100, 200⟩] ∧
    DataPlot.updateYRanges (Scenario.shell Tool.Pan [PlotValue.new PlotClass.PlotElevation])
        (Scenario.idle 20 30) = [] ∧
    ∃ lo hi, DataPlot.yRange (Scenario.shell Tool.Pan [PlotValue.new PlotClass.PlotElevation])
        (Scenario.idle 0 10).xRange (PlotValue.new PlotClass.PlotElevation) = some (lo, hi) ∧
      IsLeast {v | ∃ dp ∈ Scenario.samples, (0 : ℚ) ≤ dp.time ∧ dp.time ≤ 10 ∧
        dp.elevation = v} lo := by
  refine ⟨by decide, by decide, ?_⟩
  obtain ⟨lo, hi, h1, _, h3, _⟩ :=
    (updateYRanges_range_scan (Scenario.shell Tool.Pan [PlotValue.new PlotClass.PlotElevation])
      (Scenario.idle 0 10) 0 (PlotValue.new PlotClass.PlotElevation) rfl).1
      ⟨Scenario.sample 1 100, by simp [Scenario.shell, Scenario.samples], by decide, by decide⟩
  exact ⟨lo, hi, h1, h3⟩

/-- C6, as stated, fails: with the single sample t = 5 inside the window
[4, 6], `updateYRanges` hands the zero-width range (200, 200) to the value
axis, so not every range it hands over has `lower < upper`. -/
theorem updateYRanges_degenerate_counterexample :
    DataPlot.updateYRanges (Scenario.shell Tool.Pan [PlotValue.new PlotClass.PlotElevation])
        (Scenario.idle 4 6) = [⟨0, 200, 200⟩] ∧
    ¬ ∀ w ∈ DataPlot.updateYRanges
        (Scenario.shell Tool.Pan [PlotValue.new PlotClass.PlotElevation]) (Scenario.idle 4 6),
      w.lower < w.upper := by
  decide

/-- C6, amended.  When every sample inside the window has the same value
`y` of the `i`-th visible metric `m` (and there is such a sample),
`updateYRanges` hands exactly `(y, y)` to the value axis `i`: the range is
passed on as computed, with `lower = upper`, and any widening is left to
the axis. -/
theorem updateYRanges_degenerate (mw : MainWindow K) (s : DataPlot K) (i : Nat)
    (m : PlotValue) (y : K)
    (hm : (mw.yValues.filter PlotValue.visible)[i]? = some m)
    (hne : ∃ dp ∈ mw.data, s.xRange.lower ≤ mw.xValue.value dp mw.units ∧
      mw.xValue.value dp mw.units ≤ s.xRange.upper)
    (hconst : ∀ dp ∈ mw.data, s.xRange.lower ≤ mw.xValue.value dp mw.units →
      mw.xValue.value dp mw.units ≤ s.xRange.upper → m.value dp mw.units = y) :
    (DataPlot.updateYRanges mw s)[i]? = some ⟨i, y, y⟩ := by
  obtain ⟨lo, hi, h1, h2⟩ := updateYRangesFrom_get mw s.xRange hne mw.yValues 0 i m hm
  obtain ⟨⟨⟨d1, hd1, a1, b1, e1⟩, _⟩, ⟨⟨d2, hd2, a2, b2, e2⟩, _⟩⟩ :=
    yRange_eq_some mw s.xRange m lo hi h1
  have hlo : lo = y := by rw [← e1]; exact hconst d1 hd1 a1 b1
  have hhi : hi = y := by rw [← e2]; exact hconst d2 hd2 a2 b2
  rw [Nat.zero_add, hlo, hhi] at h2
  exact h2

/-- The amended C6 at the single sample t = 5 inside the window [4, 6]. -/
theorem updateYRanges_degenerate_witness :
    (DataPlot.updateYRanges (Scenario.shell Tool.Pan [PlotValue.new PlotClass.PlotElevation])
      (Scenario.idle 4 6))[0]? = some ⟨0, 200, 200⟩ :=
  updateYRanges_degenerate (Scenario.shell Tool.Pan [PlotValue.new PlotClass.PlotElevation])
    (Scenario.idle 4 6) 0 (PlotValue.new PlotClass.PlotElevation) 200 rfl
    ⟨Scenario.sample 5 200, by simp [Scenario.shell, Scenario.samples], by decide, by decide⟩
    (by
      intro dp hdp h1 h2
      simp only [Scenario.shell, Scenario.samples, List.mem_cons, List.mem_singleton,
        List.not_mem_nil, or_false] at hdp
      rcases hdp with rfl | rfl | rfl
      · exact absurd h1 (by decide)
      · decide
      · exact absurd h2 (by decide))

/-- C7 (axis assignment order).  For a window that contains a sample,
`updateYRanges` makes exactly one call per visible metric, the calls go to
the left axes 0, 1, 2, ... in that order, and the `k`-th call carries the
range of the `k`-th visible metric of the registry; hence the axis numbers
are the same for any other window that contains a sample, and for every
window each call goes to the axis whose number is its position. -/
theorem updateYRanges_axis_order (mw : MainWindow K) (s : DataPlot K)
    (hne : ∃ dp ∈ mw.data, s.xRange.lower ≤ mw.xValue.value dp mw.units ∧
      mw.xValue.value dp mw.units ≤ s.xRange.upper) :
    (DataPlot.updateYRanges mw s).length = (mw.yValues.filter PlotValue.visible).length ∧
    (DataPlot.updateYRanges mw s).map AxisWrite.axis =
      List.range (mw.yValues.filter PlotValue.visible).length ∧
    (∀ (k : Nat) (m : PlotValue), (mw.yValues.filter PlotValue.visible)[k]? = some m →
      ∃ lo hi, DataPlot.yRange mw s.xRange m = some (lo, hi) ∧
        (DataPlot.updateYRanges mw s)[k]? = some ⟨k, lo, hi⟩) ∧
    (∀ s2 : DataPlot K,
      (∃ dp ∈ mw.data, s2.xRange.lower ≤ mw.xValue.value dp mw.units ∧
        mw.xValue.value dp mw.units ≤ s2.xRange.upper) →
      (DataPlot.updateYRanges mw s2).map AxisWrite.axis =
        (DataPlot.updateYRanges mw s).map AxisWrite.axis) ∧
    (∀ s3 : DataPlot K, (DataPlot.updateYRanges mw s3).map AxisWrite.axis =
      List.range (DataPlot.updateYRanges mw s3).length) := by
  have hlen : ∀ t : DataPlot K,
      (∃ dp ∈ mw.data, t.xRange.lower ≤ mw.xValue.value dp mw.units ∧
        mw.xValue.value dp mw.units ≤ t.xRange.upper) →
      (DataPlot.updateYRanges mw t).length = (mw.yValues.filter PlotValue.visible).length :=
    fun t ht => updateYRangesFrom_length mw t.xRange ht mw.yValues 0
  have hax : ∀ t : DataPlot K, (DataPlot.updateYRanges mw t).map AxisWrite.axis =
      List.range (DataPlot.updateYRanges mw t).length := by
    intro t
    rw [List.range_eq_range']
    exact updateYRangesFrom_axis mw t.xRange mw.yValues 0
  refine ⟨hlen s hne, ?_, ?_, ?_, hax⟩
  · rw [hax s, hlen s hne]
  · intro k m hm
    obtain ⟨lo, hi, h1, h2⟩ := updateYRangesFrom_get mw s.xRange hne mw.yValues 0 k m hm
    rw [Nat.zero_add] at h2
    exact ⟨lo, hi, h1, h2⟩
  · intro s2 h2
    rw [hax s2, hax s, hlen s2 h2, hlen s hne]

/-- C7 on a registry of three metrics of which the first and the third are
visible: elevation goes to axis 0 and time to axis 1, on the window [0, 10]
and on the window [4, 6] alike. -/
theorem updateYRanges_axis_order_witness :
    DataPlot.updateYRanges (Scenario.shell Tool.Pan
        [PlotValue.new PlotClass.PlotElevation, PlotValue.new PlotClass.PlotVerticalSpeed,
          (PlotValue.new PlotClass.PlotTime).setVisible true]) (Scenario.idle 0 10)
      = [⟨0, 100, 200⟩, ⟨1, 1, 9⟩] ∧
    DataPlot.updateYRanges (Scenario.shell Tool.Pan
        [PlotValue.new PlotClass.PlotElevation, PlotValue.new PlotClass.PlotVerticalSpeed,
          (PlotValue.new PlotClass.PlotTime).setVisible true]) (Scenario.idle 4 6)
      = [⟨0, 200, 200⟩, ⟨1, 5, 5⟩] ∧
    (DataPlot.updateYRanges (Scenario.shell Tool.Pan
        [PlotValue.new PlotClass.PlotElevation, PlotValue.new PlotClass.PlotVerticalSpeed,
          (PlotValue.new PlotClass.PlotTime).setVisible true])
        (Scenario.idle 0 10)).map AxisWrite.axis = List.range 2 :=
  ⟨by decide, by decide,
    (updateYRanges_axis_order (Scenario.shell Tool.Pan
        [PlotValue.new PlotClass.PlotElevation, PlotValue.new PlotClass.PlotVerticalSpeed,
          (PlotValue.new PlotClass.PlotTime).setVisible true]) (Scenario.idle 0 10)
      ⟨Scenario.sample 1 100, by simp [Scenario.shell, Scenario.samples],
        by decide, by decide⟩).2.1⟩

end Ranging

/-! ## Mouse release and wheel -/

theorem afterShellSetRange_dragging {K : Type} [LinearOrderedField K]
    (mw : MainWindow K) (s : DataPlot K) (r : QCPRange K) :
    (DataPlot.afterShellSetRange mw s r).m_dragging = s.m_dragging := by
  unfold DataPlot.afterShellSetRange
  cases mw.onSetRange r <;> rfl

theorem afterShellSetRange_beginPos {K : Type} [LinearOrderedField K]
    (mw : MainWindow K) (s : DataPlot K) (r : QCPRange K) :
    (DataPlot.afterShellSetRange mw s r).m_beginPos = s.m_beginPos := by
  unfold DataPlot.afterShellSetRange
  cases mw.onSetRange r <;> rfl

theorem afterShellSetRange_cursorPos {K : Type} [LinearOrderedField K]
    (mw : MainWindow K) (s : DataPlot K) (r : QCPRange K) :
    (DataPlot.afterShellSetRange mw s r).m_cursorPos = s.m_cursorPos := by
  unfold DataPlot.afterShellSetRange
  cases mw.onSetRange r <;> rfl

section Handlers

variable {K : Type} [LinearOrderedField K]

/-- C2 (zoom drag normalisation).  A release while dragging with the tool
Zoom emits exactly one window, `[min(p(a.x), p(r.x)), max(p(a.x), p(r.x))]`
for the anchor `a`, the release pixel `r` and the pixel-to-coordinate map
`p` of the axis; its lower bound is at most its upper bound, with equality
exactly when `p(a.x) = p(r.x)`; and the drag from `r` to `a` emits the same
window as the drag from `a` to `r`. -/
theorem mouseReleaseEvent_zoom (ctx : PlotContext K) (mw : MainWindow K) (s : DataPlot K)
    (r : QPoint) (hd : s.m_dragging = true) (ht : mw.tool = Tool.Zoom) :
    (DataPlot.mouseReleaseEvent ctx mw s r).2 =
      [Intent.setRange
        ⟨min (ctx.pixelToCoord s.xRange s.m_beginPos.x) (ctx.pixelToCoord s.xRange r.x),
         max (ctx.pixelToCoord s.xRange s.m_beginPos.x) (ctx.pixelToCoord s.xRange r.x)⟩] ∧
    min (ctx.pixelToCoord s.xRange s.m_beginPos.x) (ctx.pixelToCoord s.xRange r.x) ≤
      max (ctx.pixelToCoord s.xRange s.m_beginPos.x) (ctx.pixelToCoord s.xRange r.x) ∧
    (min (ctx.pixelToCoord s.xRange s.m_beginPos.x) (ctx.pixelToCoord s.xRange r.x) =
      max (ctx.pixelToCoord s.xRange s.m_beginPos.x) (ctx.pixelToCoord s.xRange r.x) ↔
      ctx.pixelToCoord s.xRange s.m_beginPos.x = ctx.pixelToCoord s.xRange r.x) ∧
    (DataPlot.mouseReleaseEvent ctx mw { s with m_beginPos := r } s.m_beginPos).2 =
      (DataPlot.mouseReleaseEvent ctx mw s r).2 := by
  refine ⟨?_, min_le_max, ?_, ?_⟩
  · simp [DataPlot.mouseReleaseEvent, hd, ht, qMin_eq_min, qMax_eq_max]
  · constructor
    · intro h
      apply le_antisymm
      · calc ctx.pixelToCoord s.xRange s.m_beginPos.x
            ≤ max (ctx.pixelToCoord s.xRange s.m_beginPos.x)
                (ctx.pixelToCoord s.xRange r.x) := le_max_left _ _
          _ = min (ctx.pixelToCoord s.xRange s.m_beginPos.x)
                (ctx.pixelToCoord s.xRange r.x) := h.symm
          _ ≤ ctx.pixelToCoord s.xRange r.x := min_le_right _ _
      · calc ctx.pixelToCoord s.xRange r.x
            ≤ max (ctx.pixelToCoord s.xRange s.m_beginPos.x)
                (ctx.pixelToCoord s.xRange r.x) := le_max_right _ _
          _ = min (ctx.pixelToCoord s.xRange s.m_beginPos.x)
                (ctx.pixelToCoord s.xRange r.x) := h.symm
          _ ≤ ctx.pixelToCoord s.xRange s.m_beginPos.x := min_le_left _ _
    · intro h
      rw [h, min_self, max_self]
  · simp [DataPlot.mouseReleaseEvent, hd, ht, qMin_eq_min, qMax_eq_max, min_comm, max_comm]

/-- Scenarios C and D of C2: on the axis showing [-1, 11] over 200 pixels,
pixel 50 is t = 2 and pixel 150 is t = 8; pressing at 50 and releasing at
150, or pressing at 150 and releasing at 50, emits the window [2, 8]. -/
theorem mouseReleaseEvent_zoom_witness :
    (DataPlot.mouseReleaseEvent Scenario.ctx (Scenario.shell Tool.Zoom [])
      (Scenario.dragging ⟨50, 10⟩ (-1) 11) ⟨150, 20⟩).2 = [Intent.setRange ⟨2, 8⟩] ∧
    (DataPlot.mouseReleaseEvent Scenario.ctx (Scenario.shell Tool.Zoom [])
      (Scenario.dragging ⟨150, 20⟩ (-1) 11) ⟨50, 10⟩).2 = [Intent.setRange ⟨2, 8⟩] ∧
    (DataPlot.mouseReleaseEvent Scenario.ctx (Scenario.shell Tool.Zoom [])
      (Scenario.dragging ⟨150, 20⟩ (-1) 11) ⟨50, 10⟩).2 =
      [Intent.setRange
        ⟨min (Scenario.ctx.pixelToCoord ⟨-1, 11⟩ 150) (Scenario.ctx.pixelToCoord ⟨-1, 11⟩ 50),
         max (Scenario.ctx.pixelToCoord ⟨-1, 11⟩ 150) (Scenario.ctx.pixelToCoord ⟨-1, 11⟩ 50)⟩] := by
  refine ⟨?_, ?_, (mouseReleaseEvent_zoom Scenario.ctx (Scenario.shell Tool.Zoom [])
      (Scenario.dragging ⟨150, 20⟩ (-1) 11) ⟨50, 10⟩ rfl rfl).1⟩
  · norm_num [DataPlot.mouseReleaseEvent, Scenario.ctx, Scenario.shell, Scenario.dragging,
      linearPixelToCoord, qMin, qMax, DataPlot.afterShellSetRange, DataPlot.setRange]
    decide
  · norm_num [DataPlot.mouseReleaseEvent, Scenario.ctx, Scenario.shell, Scenario.dragging,
      linearPixelToCoord, qMin, qMax, DataPlot.afterShellSetRange, DataPlot.setRange]
    decide

/-- C10 (release dispatch).  When a drag is active, `mouseReleaseEvent`
emits exactly one window for Zoom, exactly one set-zero at `p(r.x)` for
Zero, exactly one set-ground at `p(r.x)` for Ground and nothing for Pan and
Measure, and the drag is inactive afterwards (anchor and cursor pixel are
kept); when no drag is active it emits nothing and leaves the state as it
is. -/
theorem mouseReleaseEvent_dispatch (ctx : PlotContext K) (mw : MainWindow K)
    (s : DataPlot K) (r : QPoint) :
    (s.m_dragging = true →
      (DataPlot.mouseReleaseEvent ctx mw s r).1.m_dragging = false ∧
      (DataPlot.mouseReleaseEvent ctx mw s r).1.m_beginPos = s.m_beginPos ∧
      (DataPlot.mouseReleaseEvent ctx mw s r).1.m_cursorPos = s.m_cursorPos ∧
      (DataPlot.mouseReleaseEvent ctx mw s r).2 =
        match mw.tool with
        | Tool.Zoom =>
          [Intent.setRange
            ⟨min (ctx.pixelToCoord s.xRange s.m_beginPos.x) (ctx.pixelToCoord s.xRange r.x),
             max (ctx.pixelToCoord s.xRange s.m_beginPos.x) (ctx.pixelToCoord s.xRange r.x)⟩]
        | Tool.Zero => [Intent.setZero (ctx.pixelToCoord s.xRange r.x)]
        | Tool.Ground => [Intent.setGround (ctx.pixelToCoord s.xRange r.x)]
        | Tool.Pan => []
        | Tool.Measure => []) ∧
    (s.m_dragging = false → DataPlot.mouseReleaseEvent ctx mw s r = (s, [])) := by
  constructor
  · intro hd
    cases ht : mw.tool <;>
      cases ho : mw.onSetRange
        ⟨qMin (ctx.pixelToCoord s.xRange s.m_beginPos.x) (ctx.pixelToCoord s.xRange r.x),
         qMax (ctx.pixelToCoord s.xRange s.m_beginPos.x) (ctx.pixelToCoord s.xRange r.x)⟩ <;>
      simp [DataPlot.mouseReleaseEvent, DataPlot.afterShellSetRange, DataPlot.setRange, hd,
        ht, ho, qMin_eq_min, qMax_eq_max] <;>
      simp [← qMin_eq_min, ← qMax_eq_max, ho, hd]
  · intro hd
    simp [DataPlot.mouseReleaseEvent, hd]

/-- C10 on the axis showing [-1, 11] over 200 pixels, release at pixel
150 (t = 8) of a drag anchored at pixel 50 (t = 2): Zero emits one set-zero
at 8, Ground one set-ground at 8, Pan and Measure nothing, and the drag
ends; without a drag a release with the tool Zero changes and emits
nothing. -/
theorem mouseReleaseEvent_dispatch_witness :
    DataPlot.mouseReleaseEvent Scenario.ctx (Scenario.shell Tool.Zero [])
        (Scenario.dragging ⟨50, 10⟩ (-1) 11) ⟨150, 20⟩ =
      ({ m_dragging := false, m_beginPos := ⟨50, 10⟩, m_cursorPos := ⟨50, 10⟩,
         xRange := ⟨-1, 11⟩ }, [Intent.setZero 8]) ∧
    (DataPlot.mouseReleaseEvent Scenario.ctx (Scenario.shell Tool.Ground [])
        (Scenario.dragging ⟨50, 10⟩ (-1) 11) ⟨150, 20⟩).2 = [Intent.setGround 8] ∧
    (DataPlot.mouseReleaseEvent Scenario.ctx (Scenario.shell Tool.Pan [])
        (Scenario.dragging ⟨50, 10⟩ (-1) 11) ⟨150, 20⟩).2 = [] ∧
    (DataPlot.mouseReleaseEvent Scenario.ctx (Scenario.shell Tool.Measure [])
        (Scenario.dragging ⟨50, 10⟩ (-1) 11) ⟨150, 20⟩).2 = [] ∧
    DataPlot.mouseReleaseEvent Scenario.ctx (Scenario.shell Tool.Zero [])
        (Scenario.idle (-1) 11) ⟨150, 20⟩ = (Scenario.idle (-1) 11, []) := by
  refine ⟨?_, ?_, ?_, ?_, (mouseReleaseEvent_dispatch Scenario.ctx (Scenario.shell Tool.Zero [])
    (Scenario.idle (-1) 11) ⟨150, 20⟩).2 rfl⟩
  · simp [DataPlot.mouseReleaseEvent, Scenario.ctx, Scenario.shell, Scenario.dragging,
      linearPixelToCoord]
    norm_num
  · simp [DataPlot.mouseReleaseEvent, Scenario.ctx, Scenario.shell, Scenario.dragging,
      linearPixelToCoord]
    norm_num
  · simp [DataPlot.mouseReleaseEvent, Scenario.shell, Scenario.dragging]
  · simp [DataPlot.mouseReleaseEvent, Scenario.shell, Scenario.dragging]

/-- C9, as stated, fails: a wheel event whose cursor pixel (300, 50) lies
outside the plotting rectangle emits nothing, so it is not true that every
cursor pixel yields a window. -/
theorem wheelEvent_unconditional_counterexample :
    (DataPlot.wheelEvent Scenario.ctx (Scenario.shell Tool.Pan []) (Scenario.idle 0 10)
      ⟨300, 50⟩ 120).2 = [] ∧
    ¬ ∀ pos : QPoint, ∃ r, (DataPlot.wheelEvent Scenario.ctx (Scenario.shell Tool.Pan [])
      (Scenario.idle 0 10) pos 120).2 = [Intent.setRange r] := by
  have h : (DataPlot.wheelEvent Scenario.ctx (Scenario.shell Tool.Pan []) (Scenario.idle 0 10)
      ⟨300, 50⟩ 120).2 = [] := by
    simp [DataPlot.wheelEvent, Scenario.ctx, QRect.contains]
  refine ⟨h, fun hall => ?_⟩
  obtain ⟨r, hr⟩ := hall ⟨300, 50⟩
  rw [h] at hr
  exact absurd hr (by simp)

/-- C9, amended.  Whatever the drag state and the selected tool, a wheel
event whose cursor pixel is inside the plotting rectangle emits exactly one
window, `[x + (lower - x)*f, x + (upper - x)*f]` with `x` the coordinate
under the cursor and `f = exp(-deltaY/500)`; a wheel event whose cursor
pixel is outside the rectangle emits nothing and changes nothing; in both
cases the drag state (active flag, anchor pixel, cursor pixel) is left as
it is. -/
theorem wheelEvent_spec (ctx : PlotContext K) (mw : MainWindow K) (s : DataPlot K)
    (pos : QPoint) (deltaY : Int) :
    (ctx.rect.contains pos = true →
      (DataPlot.wheelEvent ctx mw s pos deltaY).2 =
        [Intent.setRange
          ⟨ctx.pixelToCoord s.xRange pos.x +
              (s.xRange.lower - ctx.pixelToCoord s.xRange pos.x) *
                ctx.exp (-(deltaY : K) / 500),
           ctx.pixelToCoord s.xRange pos.x +
              (s.xRange.upper - ctx.pixelToCoord s.xRange pos.x) *
                ctx.exp (-(deltaY : K) / 500)⟩]) ∧
    (ctx.rect.contains pos = false → DataPlot.wheelEvent ctx mw s pos deltaY = (s, [])) ∧
    (DataPlot.wheelEvent ctx mw s pos deltaY).1.m_dragging = s.m_dragging ∧
    (DataPlot.wheelEvent ctx mw s pos deltaY).1.m_beginPos = s.m_beginPos ∧
    (DataPlot.wheelEvent ctx mw s pos deltaY).1.m_cursorPos = s.m_cursorPos := by
  refine ⟨?_, ?_, ?_, ?_, ?_⟩
  · intro h
    simp [DataPlot.wheelEvent, DataPlot.wheelRange, h, Int.cast_neg]
  · intro h
    simp [DataPlot.wheelEvent, h]
  all_goals
    by_cases h : ctx.rect.contains pos = true
    · simp [DataPlot.wheelEvent, h, afterShellSetRange_dragging, afterShellSetRange_beginPos,
        afterShellSetRange_cursorPos]
    · simp [DataPlot.wheelEvent, h]

/-- Scenario E for the amended C9, over the reals: a wheel event with
deltaY = 500 at pixel 100 (t = 5) on the window [0, 10], during a Measure
drag, emits `[5 - 5*exp(-1), 5 + 5*exp(-1)]`. -/
theorem wheelEvent_spec_witness :
    (DataPlot.wheelEvent
      ({ rect := ⟨0, 0, 199, 99⟩, pixelToCoord := linearPixelToCoord 0 200,
         exp := Real.exp } : PlotContext ℝ)
      { tool := Tool.Measure, units := Units.Metric, xValue := PlotClass.PlotTime,
        yValues := [], data := [], onSetRange := fun r => some r }
      { m_dragging := true, m_beginPos := ⟨20, 20⟩, m_cursorPos := ⟨30, 30⟩,
        xRange := ⟨0, 10⟩ }
      ⟨100, 50⟩ 500).2 =
    [Intent.setRange ⟨5 - 5 * Real.exp (-1), 5 + 5 * Real.exp (-1)⟩] := by
  have h := (wheelEvent_spec
      ({ rect := ⟨0, 0, 199, 99⟩, pixelToCoord := linearPixelToCoord 0 200,
         exp := Real.exp } : PlotContext ℝ)
      { tool := Tool.Measure, units := Units.Metric, xValue := PlotClass.PlotTime,
        yValues := [], data := [], onSetRange := fun r => some r }
      { m_dragging := true, m_beginPos := ⟨20, 20⟩, m_cursorPos := ⟨30, 30⟩,
        xRange := ⟨0, 10⟩ }
      ⟨100, 50⟩ 500).1 (by decide)
  rw [h]
  norm_num [linearPixelToCoord]
  ring

/-- C3 (wheel zoom keeps the point under the cursor).  For a window with
`lower < upper`, a cursor coordinate `x` and a factor `f > 0`, the window
`[x + (lower - x)*f, x + (upper - x)*f]` that `wheelEvent` emits has width
`f*(upper - lower)`, is again a proper window, and has `x` at the same
relative position; so a linear axis over a fixed pixel extent maps `x` to
the same pixel before and after; and the factor 1 leaves the window as it
is. -/
theorem wheelRange_keeps_cursor (range : QCPRange K) (x f : K)
    (hlt : range.lower < range.upper) (hf : 0 < f) :
    (DataPlot.wheelRange range x f).upper - (DataPlot.wheelRange range x f).lower =
      f * (range.upper - range.lower) ∧
    (DataPlot.wheelRange range x f).lower < (DataPlot.wheelRange range x f).upper ∧
    (x - (DataPlot.wheelRange range x f).lower) /
        ((DataPlot.wheelRange range x f).upper - (DataPlot.wheelRange range x f).lower) =
      (x - range.lower) / (range.upper - range.lower) ∧
    (∀ left width : K, linearCoordToPixel left width (DataPlot.wheelRange range x f) x =
      linearCoordToPixel left width range x) ∧
    DataPlot.wheelRange range x 1 = range ∧
    (∀ (ctx : PlotContext K) (mw : MainWindow K) (s : DataPlot K) (pos : QPoint)
      (deltaY : Int), ctx.rect.contains pos = true →
      (DataPlot.wheelEvent ctx mw s pos deltaY).2 =
        [Intent.setRange (DataPlot.wheelRange s.xRange (ctx.pixelToCoord s.xRange pos.x)
          (ctx.exp (-(deltaY : K) / 500)))]) := by
  have hw : 0 < range.upper - range.lower := sub_pos.mpr hlt
  have hwidth : (DataPlot.wheelRange range x f).upper - (DataPlot.wheelRange range x f).lower =
      f * (range.upper - range.lower) := by
    simp only [DataPlot.wheelRange]; ring
  have hrel : (x - (DataPlot.wheelRange range x f).lower) /
        ((DataPlot.wheelRange range x f).upper - (DataPlot.wheelRange range x f).lower) =
      (x - range.lower) / (range.upper - range.lower) := by
    rw [hwidth]
    have h1 : x - (DataPlot.wheelRange range x f).lower = f * (x - range.lower) := by
      simp only [DataPlot.wheelRange]; ring
    rw [h1]
    exact mul_div_mul_left _ _ hf.ne.symm
  refine ⟨hwidth, ?_, hrel, ?_, ?_, ?_⟩
  · have := mul_pos hf hw
    rw [← hwidth] at this
    exact sub_pos.mp this
  · intro left width
    unfold linearCoordToPixel
    rw [hrel]
  · cases range with
    | mk l u => simp [DataPlot.wheelRange]
  · intro ctx mw s pos deltaY h
    simp [DataPlot.wheelEvent, h, Int.cast_neg]

/-- C3 on the window [0, 10] with the cursor at x = 2, for the factors
0.5, 1 and 2: the emitted windows are [1, 6], [0, 10] and [-2, 18], and on
an axis of 200 pixels x stays at pixel 40. -/
theorem wheelRange_keeps_cursor_witness :
    (DataPlot.wheelRange (⟨0, 10⟩ : QCPRange ℚ) 2 (1 / 2) = ⟨1, 6⟩ ∧
      linearCoordToPixel 0 200 (DataPlot.wheelRange (⟨0, 10⟩ : QCPRange ℚ) 2 (1 / 2)) 2 =
        linearCoordToPixel 0 200 (⟨0, 10⟩ : QCPRange ℚ) 2) ∧
    (DataPlot.wheelRange (⟨0, 10⟩ : QCPRange ℚ) 2 1 = ⟨0, 10⟩ ∧
      linearCoordToPixel 0 200 (DataPlot.wheelRange (⟨0, 10⟩ : QCPRange ℚ) 2 1) 2 =
        linearCoordToPixel 0 200 (⟨0, 10⟩ : QCPRange ℚ) 2) ∧
    (DataPlot.wheelRange (⟨0, 10⟩ : QCPRange ℚ) 2 2 = ⟨-2, 18⟩ ∧
      linearCoordToPixel 0 200 (DataPlot.wheelRange (⟨0, 10⟩ : QCPRange ℚ) 2 2) 2 =
        linearCoordToPixel 0 200 (⟨0, 10⟩ : QCPRange ℚ) 2) ∧
    linearCoordToPixel 0 200 (⟨0, 10⟩ : QCPRange ℚ) 2 = 40 := by
  refine ⟨⟨?_, (wheelRange_keeps_cursor (⟨0, 10⟩ : QCPRange ℚ) 2 (1 / 2)
      (by norm_num) (by norm_num)).2.2.2.1 0 200⟩,
    ⟨?_, (wheelRange_keeps_cursor (⟨0, 10⟩ : QCPRange ℚ) 2 1
      (by norm_num) (by norm_num)).2.2.2.1 0 200⟩,
    ⟨?_, (wheelRange_keeps_cursor (⟨0, 10⟩ : QCPRange ℚ) 2 2
      (by norm_num) (by norm_num)).2.2.2.1 0 200⟩, ?_⟩
  · norm_num [DataPlot.wheelRange]
  · norm_num [DataPlot.wheelRange]
  · norm_num [DataPlot.wheelRange]
  · norm_num [linearCoordToPixel]

theorem run_cons (ctx : PlotContext K) (s : DataPlot K) (mw : MainWindow K) (ev : Event)
    (rest : List (MainWindow K × Event)) :
    DataPlot.run ctx s ((mw, ev) :: rest) =
      ((DataPlot.run ctx (DataPlot.handle ctx mw s ev).1 rest).1,
        (DataPlot.handle ctx mw s ev).2 ++
          (DataPlot.run ctx (DataPlot.handle ctx mw s ev).1 rest).2) := by
  rfl

theorem run_append (ctx : PlotContext K) (s : DataPlot K)
    (l1 l2 : List (MainWindow K × Event)) :
    DataPlot.run ctx s (l1 ++ l2) =
      ((DataPlot.run ctx (DataPlot.run ctx s l1).1 l2).1,
        (DataPlot.run ctx s l1).2 ++ (DataPlot.run ctx (DataPlot.run ctx s l1).1 l2).2) := by
  induction l1 generalizing s with
  | nil => simp [DataPlot.run]
  | cons e l1 ih =>
    obtain ⟨mw, ev⟩ := e
    rw [List.cons_append, run_cons, run_cons, ih]
    simp [List.append_assoc]

/-- A move while the shell reports Pan emits only windows and cursor
intents and keeps the drag flag. -/
theorem mouseMoveEvent_pan (ctx : PlotContext K) (mw : MainWindow K) (s : DataPlot K)
    (pos : QPoint) (ht : mw.tool = Tool.Pan) :
    (∀ it ∈ (DataPlot.mouseMoveEvent ctx mw s pos).2, it.isWindowOrCursor = true) ∧
    (DataPlot.mouseMoveEvent ctx mw s pos).1.m_dragging = s.m_dragging := by
  by_cases hd : s.m_dragging = true <;> by_cases hc : ctx.rect.contains pos = true <;>
    simp [DataPlot.mouseMoveEvent, ht, hd, hc, afterShellSetRange_dragging,
      Intent.isWindowOrCursor]

/-- A release while the shell reports Pan emits nothing and ends the
drag. -/
theorem mouseReleaseEvent_pan (ctx : PlotContext K) (mw : MainWindow K) (s : DataPlot K)
    (r : QPoint) (ht : mw.tool = Tool.Pan) :
    (DataPlot.mouseReleaseEvent ctx mw s r).2 = [] ∧
    (DataPlot.mouseReleaseEvent ctx mw s r).1.m_dragging = false := by
  by_cases hd : s.m_dragging = true <;> simp [DataPlot.mouseReleaseEvent, ht, hd]

theorem run_moves_pan (ctx : PlotContext K) (moves : List (MainWindow K × QPoint))
    (hmoves : ∀ e ∈ moves, e.1.tool = Tool.Pan) (s : DataPlot K) :
    (∀ it ∈ (DataPlot.run ctx s (moves.map fun e => (e.1, Event.move e.2))).2,
      it.isWindowOrCursor = true) ∧
    (DataPlot.run ctx s (moves.map fun e => (e.1, Event.move e.2))).1.m_dragging =
      s.m_dragging := by
  induction moves generalizing s with
  | nil => simp [DataPlot.run]
  | cons e moves ih =>
    obtain ⟨mw, pos⟩ := e
    have ht : mw.tool = Tool.Pan := hmoves (mw, pos) (List.mem_cons_self _ _)
    have hrest : ∀ e ∈ moves, e.1.tool = Tool.Pan :=
      fun e he => hmoves e (List.mem_cons_of_mem _ he)
    obtain ⟨h1, h2⟩ := mouseMoveEvent_pan ctx mw s pos ht
    obtain ⟨h3, h4⟩ := ih hrest (DataPlot.mouseMoveEvent ctx mw s pos).1
    rw [List.map_cons, run_cons]
    refine ⟨?_, ?_⟩
    · intro it hit
      rcases List.mem_append.mp hit with h | h
      · exact h1 it h
      · exact h3 it h
    · exact h4.trans h2

/-- C5, as stated, fails: three drags that all start with a press while
Pan is selected, at the same pixels, emit a set-zero, a Zoom window, or
nothing, according to the tool the shell reports at the release; and a move
while Measure is reported emits a measure intent. -/
theorem drag_tool_fixed_counterexample :
    (DataPlot.run Scenario.ctx (Scenario.idle (-1) 11)
      [(Scenario.shell Tool.Pan [], Event.press ⟨50, 10⟩),
        (Scenario.shell Tool.Zero [], Event.release ⟨150, 20⟩)]).2 = [Intent.setZero 8] ∧
    (DataPlot.run Scenario.ctx (Scenario.idle (-1) 11)
      [(Scenario.shell Tool.Pan [], Event.press ⟨50, 10⟩),
        (Scenario.shell Tool.Zoom [], Event.release ⟨150, 20⟩)]).2 =
      [Intent.setRange ⟨2, 8⟩] ∧
    (DataPlot.run Scenario.ctx (Scenario.idle (-1) 11)
      [(Scenario.shell Tool.Pan [], Event.press ⟨50, 10⟩),
        (Scenario.shell Tool.Pan [], Event.release ⟨150, 20⟩)]).2 = [] ∧
    (DataPlot.run Scenario.ctx (Scenario.idle (-1) 11)
      [(Scenario.shell Tool.Pan [], Event.press ⟨50, 10⟩),
        (Scenario.shell Tool.Measure [], Event.move ⟨100, 20⟩)]).2 =
      [Intent.measure 2 5] := by
  refine ⟨?_, ?_, ?_, ?_⟩
  · simp [DataPlot.run, DataPlot.handle, DataPlot.mousePressEvent, DataPlot.mouseReleaseEvent,
      Scenario.ctx, Scenario.shell, Scenario.idle, DataPlot.init, QRect.contains,
      linearPixelToCoord]
    norm_num
  · simp [DataPlot.run, DataPlot.handle, DataPlot.mousePressEvent, DataPlot.mouseReleaseEvent,
      Scenario.ctx, Scenario.shell, Scenario.idle, DataPlot.init, QRect.contains,
      linearPixelToCoord, qMin, qMax]
    norm_num
  · simp [DataPlot.run, DataPlot.handle, DataPlot.mousePressEvent, DataPlot.mouseReleaseEvent,
      Scenario.ctx, Scenario.shell, Scenario.idle, DataPlot.init, QRect.contains]
  · simp [DataPlot.run, DataPlot.handle, DataPlot.mousePressEvent, DataPlot.mouseMoveEvent,
      Scenario.ctx, Scenario.shell, Scenario.idle, DataPlot.init, QRect.contains,
      linearPixelToCoord]
    norm_num

/-- C5, amended.  The handlers keep no record of the tool selected at
the press; each move and release acts on the tool the shell reports at that
event.  For a press, any moves and a release such that the shell reports
Pan at every move and at the release (whatever it reports at the press):
every intent emitted is a window or a cursor mark or clear, so no set-zero,
set-ground or measure intent is emitted; the release itself emits nothing;
and the drag is inactive afterwards.  And what a release emits is the same
for any two shells that report the same tool. -/
theorem pan_drag_intents (ctx : PlotContext K) (s : DataPlot K) (mwp mwr : MainWindow K)
    (a r : QPoint) (moves : List (MainWindow K × QPoint))
    (hmoves : ∀ e ∈ moves, e.1.tool = Tool.Pan) (hr : mwr.tool = Tool.Pan) :
    (∀ it ∈ (DataPlot.run ctx s ((mwp, Event.press a) ::
        ((moves.map fun e => (e.1, Event.move e.2)) ++ [(mwr, Event.release r)]))).2,
      it.isWindowOrCursor = true) ∧
    (DataPlot.run ctx s ((mwp, Event.press a) ::
        ((moves.map fun e => (e.1, Event.move e.2)) ++ [(mwr, Event.release r)]))).2 =
      (DataPlot.run ctx s ((mwp, Event.press a) ::
        (moves.map fun e => (e.1, Event.move e.2)))).2 ∧
    (DataPlot.run ctx s ((mwp, Event.press a) ::
        ((moves.map fun e => (e.1, Event.move e.2)) ++ [(mwr, Event.release r)]))).1.m_dragging
      = false ∧
    (∀ (mw1 mw2 : MainWindow K) (s1 : DataPlot K) (r1 : QPoint), mw1.tool = mw2.tool →
      (DataPlot.mouseReleaseEvent ctx mw1 s1 r1).2 =
        (DataPlot.mouseReleaseEvent ctx mw2 s1 r1).2) := by
  obtain ⟨h1, _⟩ := run_moves_pan ctx moves hmoves (DataPlot.mousePressEvent ctx s a)
  have hrel : ∀ t : DataPlot K,
      DataPlot.run ctx t [(mwr, Event.release r)] =
        ((DataPlot.mouseReleaseEvent ctx mwr t r).1, []) := by
    intro t
    rw [run_cons]
    simp [DataPlot.run, DataPlot.handle, (mouseReleaseEvent_pan ctx mwr t r hr).1]
  refine ⟨?_, ?_, ?_, ?_⟩
  · intro it hit
    rw [run_cons, run_append, hrel] at hit
    simp only [DataPlot.handle, List.nil_append, List.append_nil] at hit
    exact h1 it hit
  · rw [run_cons, run_append, hrel, run_cons]
    simp [DataPlot.handle]
  · rw [run_cons, run_append, hrel]
    exact (mouseReleaseEvent_pan ctx mwr _ r hr).2
  · intro mw1 mw2 s1 r1 h12
    cases ht : mw2.tool <;> by_cases hd : s1.m_dragging = true <;>
      simp [DataPlot.mouseReleaseEvent, h12, ht, hd, afterShellSetRange_dragging]

/-- The amended C5 on a drag from pixel 50 over pixel 100 to pixel 150
with Pan reported throughout: the move emits the shifted window [-4, 8] and
a cursor mark, the release nothing. -/
theorem pan_drag_intents_witness :
    (DataPlot.run Scenario.ctx (Scenario.idle (-1) 11)
      ((Scenario.shell Tool.Pan [], Event.press ⟨50, 10⟩) ::
        (([(Scenario.shell Tool.Pan [], (⟨100, 20⟩ : QPoint))].map
            fun e => (e.1, Event.move e.2)) ++
          [(Scenario.shell Tool.Pan [], Event.release ⟨150, 20⟩)]))).2 =
      [Intent.setRange ⟨-4, 8⟩, Intent.mark 2] ∧
    ∀ it ∈ (DataPlot.run Scenario.ctx (Scenario.idle (-1) 11)
      ((Scenario.shell Tool.Pan [], Event.press ⟨50, 10⟩) ::
        (([(Scenario.shell Tool.Pan [], (⟨100, 20⟩ : QPoint))].map
            fun e => (e.1, Event.move e.2)) ++
          [(Scenario.shell Tool.Pan [], Event.release ⟨150, 20⟩)]))).2,
      it.isWindowOrCursor = true := by
  refine ⟨?_, (pan_drag_intents Scenario.ctx (Scenario.idle (-1) 11)
    (Scenario.shell Tool.Pan []) (Scenario.shell Tool.Pan []) ⟨50, 10⟩ ⟨150, 20⟩
    [(Scenario.shell Tool.Pan [], (⟨100, 20⟩ : QPoint))] (by simp [Scenario.shell]) rfl).1⟩
  simp [DataPlot.run, DataPlot.handle, DataPlot.mousePressEvent, DataPlot.mouseMoveEvent,
    DataPlot.mouseReleaseEvent, DataPlot.afterShellSetRange, DataPlot.setRange,
    Scenario.ctx, Scenario.shell, Scenario.idle, DataPlot.init, QRect.contains,
    linearPixelToCoord]
  norm_num

end Handlers

/-! ## Persisted settings -/

section Settings

theorem string_append_left_cancel (a b c : String) (h : a ++ b = a ++ c) : b = c := by
  have h1 : (a ++ b).data = (a ++ c).data := by rw [h]
  rw [String.data_append, String.data_append] at h1
  exact String.ext (List.append_cancel_left h1)

/-- The class names, hence the settings keys, of the 19 classes are
pairwise distinct. -/
theorem className_injective (c1 c2 : PlotClass) (h : c1.className = c2.className) :
    c1 = c2 := by
  cases c1 <;> cases c2 <;> first | rfl | exact absurd h (by decide)

theorem settingsGroup_injective (m1 m2 : PlotValue)
    (h : m1.settingsGroup = m2.settingsGroup) : m1.cls = m2.cls :=
  className_injective _ _ (string_append_left_cancel _ _ _ h)

theorem QSettings.value_setValue_same (st : QSettings) (group key : String)
    (v d : QVariant) : (st.setValue group key v).value group key d = v := by
  simp [QSettings.value, QSettings.setValue, List.lookup]

theorem QSettings.value_setValue_other (st : QSettings) (g1 k1 g2 k2 : String)
    (v d : QVariant) (h : g2 ≠ g1 ∨ k2 ≠ k1) :
    (st.setValue g1 k1 v).value g2 k2 d = st.value g2 k2 d := by
  have hne : ((g2, k2) == (g1, k1)) = false := by
    rw [beq_eq_false_iff_ne]
    intro he
    rcases h with h | h
    · exact h (congrArg Prod.fst he)
    · exact h (congrArg Prod.snd he)
  simp [QSettings.value, QSettings.setValue, List.lookup, hne]

/-- C4 (settings round-trip).  After `writeSettings` on a metric holding
`(visible, color)`, `readSettings` on that metric, whatever visible and
color it holds at the time of the read, leaves it with exactly the saved
`(visible, color)` and touches nothing else; the group keys of the 19
classes are pairwise distinct; and writing the settings of one metric does
not change what `readSettings` restores for a metric of another class. -/
theorem settings_round_trip (m m1 other : PlotValue) (st : QSettings) :
    (m1.cls = m.cls →
      m1.readSettings (m.writeSettings st) =
        { m1 with mVisible := m.mVisible, mColor := m.mColor }) ∧
    (∀ c1 c2 : PlotClass, (PlotValue.new c1).settingsGroup = (PlotValue.new c2).settingsGroup →
      c1 = c2) ∧
    (other.cls ≠ m.cls →
      other.readSettings (m.writeSettings st) = other.readSettings st) := by
  refine ⟨?_, ?_, ?_⟩
  · intro hc
    have hg : m1.settingsGroup = m.settingsGroup := by
      simp [PlotValue.settingsGroup, PlotValue.key, hc]
    unfold PlotValue.readSettings PlotValue.writeSettings
    simp only [hg]
    rw [QSettings.value_setValue_other _ _ _ _ _ _ _ (Or.inr (by decide)),
      QSettings.value_setValue_same, QSettings.value_setValue_same]
    rfl
  · intro c1 c2 h
    exact settingsGroup_injective _ _ h
  · intro hc
    have hg : other.settingsGroup ≠ m.settingsGroup :=
      fun h => hc (settingsGroup_injective _ _ h)
    unfold PlotValue.readSettings PlotValue.writeSettings
    simp only
    rw [QSettings.value_setValue_other _ _ _ _ _ _ _ (Or.inl hg),
      QSettings.value_setValue_other _ _ _ _ _ _ _ (Or.inl hg),
      QSettings.value_setValue_other _ _ _ _ _ _ _ (Or.inl hg),
      QSettings.value_setValue_other _ _ _ _ _ _ _ (Or.inl hg)]

/-- C4 on the vertical-speed metric saved as (visible, red) into a store
that already holds settings of the elevation metric: reading it back into
a vertical-speed metric that is meanwhile (invisible, blue) restores
(visible, red), and what the elevation metric reads is not affected. -/
theorem settings_round_trip_witness :
    ((PlotValue.new PlotClass.PlotVerticalSpeed).setColor Qt.blue).readSettings
        ((((PlotValue.new PlotClass.PlotVerticalSpeed).setVisible true).setColor
            Qt.red).writeSettings
          (((PlotValue.new PlotClass.PlotElevation).setVisible false).writeSettings [])) =
      { cls := PlotClass.PlotVerticalSpeed, mVisible := true, mColor := Qt.red,
        mAxis := none } ∧
    (PlotValue.new PlotClass.PlotElevation).readSettings
        ((((PlotValue.new PlotClass.PlotVerticalSpeed).setVisible true).setColor
            Qt.red).writeSettings
          (((PlotValue.new PlotClass.PlotElevation).setVisible false).writeSettings [])) =
      (PlotValue.new PlotClass.PlotElevation).readSettings
        (((PlotValue.new PlotClass.PlotElevation).setVisible false).writeSettings []) ∧
    ((PlotValue.new PlotClass.PlotElevation).readSettings
        (((PlotValue.new PlotClass.PlotElevation).setVisible false).writeSettings [])).mVisible
      = false :=
  ⟨(settings_round_trip
      (((PlotValue.new PlotClass.PlotVerticalSpeed).setVisible true).setColor Qt.red)
      ((PlotValue.new PlotClass.PlotVerticalSpeed).setColor Qt.blue)
      (PlotValue.new PlotClass.PlotElevation)
      (((PlotValue.new PlotClass.PlotElevation).setVisible false).writeSettings [])).1 rfl,
    (settings_round_trip
      (((PlotValue.new PlotClass.PlotVerticalSpeed).setVisible true).setColor Qt.red)
      ((PlotValue.new PlotClass.PlotVerticalSpeed).setColor Qt.blue)
      (PlotValue.new PlotClass.PlotElevation)
      (((PlotValue.new PlotClass.PlotElevation).setVisible false).writeSettings [])).2.2
      (by decide),
    by decide⟩

/-- C8, as stated, fails: the elevation metric is constructed visible;
after `setVisible(false)` and `setColor(red)`, `readSettings` against an
empty store leaves it invisible and red, not at the constructor defaults
(visible, black). -/
theorem readSettings_default_counterexample :
    (((PlotValue.new PlotClass.PlotElevation).setVisible false).setColor Qt.red).readSettings []
      = { cls := PlotClass.PlotElevation, mVisible := false, mColor := Qt.red,
          mAxis := none } ∧
    ((((PlotValue.new PlotClass.PlotElevation).setVisible false).setColor
        Qt.red).readSettings []).mVisible ≠ PlotClass.PlotElevation.defaultVisible ∧
    ((((PlotValue.new PlotClass.PlotElevation).setVisible false).setColor
        Qt.red).readSettings []).mColor ≠ PlotClass.PlotElevation.defaultColor := by
  decide

/-- C8, amended.  `readSettings` is total, and for a store without a
'visible' (respectively 'color') entry under the metric's key it leaves
that field at the value the metric holds at the time of the call; for a
metric unchanged since construction that value is the default passed to its
constructor. -/
theorem readSettings_missing (m : PlotValue) (c : PlotClass) (st : QSettings) :
    (st.contains m.settingsGroup "visible" = false →
      (m.readSettings st).mVisible = m.mVisible) ∧
    (st.contains m.settingsGroup "color" = false →
      (m.readSettings st).mColor = m.mColor) ∧
    (st.contains (PlotValue.new c).settingsGroup "visible" = false →
      ((PlotValue.new c).readSettings st).mVisible = c.defaultVisible) ∧
    (st.contains (PlotValue.new c).settingsGroup "color" = false →
      ((PlotValue.new c).readSettings st).mColor = c.defaultColor) := by
  have hv : ∀ (g k : String) (d : QVariant), st.contains g k = false → st.value g k d = d := by
    intro g k d h
    unfold QSettings.contains at h
    unfold QSettings.value
    cases hl : st.lookup (g, k) with
    | none => rfl
    | some v => rw [hl] at h; simp at h
  have hvis : ∀ n : PlotValue, st.contains n.settingsGroup "visible" = false →
      (n.readSettings st).mVisible = n.mVisible := by
    intro n h
    simp [PlotValue.readSettings, hv _ _ _ h, QVariant.toBool]
  have hcol : ∀ n : PlotValue, st.contains n.settingsGroup "color" = false →
      (n.readSettings st).mColor = n.mColor := by
    intro n h
    simp [PlotValue.readSettings, hv _ _ _ h, QVariant.toColor]
  exact ⟨hvis m, hcol m, hvis (PlotValue.new c), hcol (PlotValue.new c)⟩

/-- The amended C8 on a store that holds only a colour for the vertical
speed metric: a fresh vertical-speed metric reads its constructor default
(invisible) and the stored colour, and one that was made visible stays
visible. -/
theorem readSettings_missing_witness :
    ((PlotValue.new PlotClass.PlotVerticalSpeed).readSettings
      [(("plotValue/PlotVerticalSpeed", "color"), QVariant.color Qt.red)]) =
      { cls := PlotClass.PlotVerticalSpeed, mVisible := false, mColor := Qt.red,
        mAxis := none } ∧
    (((PlotValue.new PlotClass.PlotVerticalSpeed).setVisible true).readSettings
      [(("plotValue/PlotVerticalSpeed", "color"), QVariant.color Qt.red)]).mVisible =
      ((PlotValue.new PlotClass.PlotVerticalSpeed).setVisible true).mVisible ∧
    ((PlotValue.new PlotClass.PlotElevation).readSettings []).mColor = Qt.black :=
  ⟨by decide,
    (readSettings_missing ((PlotValue.new PlotClass.PlotVerticalSpeed).setVisible true)
      PlotClass.PlotElevation
      [(("plotValue/PlotVerticalSpeed", "color"), QVariant.color Qt.red)]).1 (by decide),
    by decide⟩

end Settings

/-! ## Mouse moves and gestures -/

section Moves

variable {K : Type} [LinearOrderedField K]

/-- One event that is no press inside the rectangle and no wheel event,
handled while no drag is active: no drag is active afterwards and only
cursor intents are emitted. -/
theorem handle_idle (ctx : PlotContext K) (mw : MainWindow K) (s : DataPlot K) (ev : Event)
    (hs : s.m_dragging = false) (hev : ev.startsNoGesture ctx.rect = true) :
    (DataPlot.handle ctx mw s ev).1.m_dragging = false ∧
    ∀ it ∈ (DataPlot.handle ctx mw s ev).2, it.isCursor = true := by
  cases ev with
  | press pos =>
    have hc : ctx.rect.contains pos = false := by
      simpa [Event.startsNoGesture] using hev
    simp [DataPlot.handle, DataPlot.mousePressEvent, hc, hs]
  | release pos =>
    simp [DataPlot.handle, DataPlot.mouseReleaseEvent, hs]
  | move pos =>
    by_cases hc : ctx.rect.contains pos = true <;>
      simp [DataPlot.handle, DataPlot.mouseMoveEvent, hs, hc, Intent.isCursor]
  | wheel pos d => simp [Event.startsNoGesture] at hev
  | leave => simp [DataPlot.handle, DataPlot.leaveEvent, hs, Intent.isCursor]

theorem run_idle (ctx : PlotContext K) (trace : List (MainWindow K × Event))
    (ht : ∀ e ∈ trace, e.2.startsNoGesture ctx.rect = true) (s : DataPlot K)
    (hs : s.m_dragging = false) :
    (DataPlot.run ctx s trace).1.m_dragging = false ∧
    ∀ it ∈ (DataPlot.run ctx s trace).2, it.isCursor = true := by
  induction trace generalizing s with
  | nil => simp [DataPlot.run, hs]
  | cons e trace ih =>
    obtain ⟨mw, ev⟩ := e
    obtain ⟨h1, h2⟩ := handle_idle ctx mw s ev hs (ht (mw, ev) (List.mem_cons_self _ _))
    obtain ⟨h3, h4⟩ := ih (fun e he => ht e (List.mem_cons_of_mem _ he)) _ h1
    rw [run_cons]
    refine ⟨h3, ?_⟩
    intro it hit
    rcases List.mem_append.mp hit with h | h
    · exact h2 it h
    · exact h4 it h

/-- C11 (gestures that start outside the rectangle).  Starting with no
drag active, for every sequence of presses outside the plotting rectangle,
moves, releases and leave events, with any tool reported at each event: no
drag is active after any prefix of the sequence, and every intent emitted
is a cursor-mark or a cursor-clear, so no window, measure, set-zero or
set-ground intent is emitted. -/
theorem no_gesture_without_press_inside (ctx : PlotContext K) (s : DataPlot K)
    (trace : List (MainWindow K × Event)) (hs : s.m_dragging = false)
    (ht : ∀ e ∈ trace, e.2.startsNoGesture ctx.rect = true) :
    (∀ n : Nat, (DataPlot.run ctx s (trace.take n)).1.m_dragging = false) ∧
    (∀ it ∈ (DataPlot.run ctx s trace).2, it.isCursor = true) ∧
    (∀ it ∈ (DataPlot.run ctx s trace).2,
      (∀ r, it ≠ Intent.setRange r) ∧ (∀ a b, it ≠ Intent.measure a b) ∧
      (∀ x, it ≠ Intent.setZero x) ∧ (∀ x, it ≠ Intent.setGround x)) := by
  have h2 := (run_idle ctx trace ht s hs).2
  refine ⟨?_, h2, ?_⟩
  · intro n
    exact (run_idle ctx (trace.take n) (fun e he => ht e (List.mem_of_mem_take he)) s hs).1
  · intro it hit
    have hc := h2 it hit
    refine ⟨?_, ?_, ?_, ?_⟩
    · intro r h; rw [h] at hc; simp [Intent.isCursor] at hc
    · intro a b h; rw [h] at hc; simp [Intent.isCursor] at hc
    · intro x h; rw [h] at hc; simp [Intent.isCursor] at hc
    · intro x h; rw [h] at hc; simp [Intent.isCursor] at hc

/-- C11 on a press at (300, 50), outside the rectangle, a move to (100, 20)
inside it, a move to (300, 20) outside it and a release, with Zoom, Pan,
Measure and Zero reported in turn: a cursor-mark and a cursor-clear are all
that is emitted, and no drag is active at the end. -/
theorem no_gesture_without_press_inside_witness :
    DataPlot.run Scenario.ctx (Scenario.idle (-1) 11)
      [(Scenario.shell Tool.Zoom [], Event.press ⟨300, 50⟩),
        (Scenario.shell Tool.Pan [], Event.move ⟨100, 20⟩),
        (Scenario.shell Tool.Measure [], Event.move ⟨300, 20⟩),
        (Scenario.shell Tool.Zero [], Event.release ⟨100, 20⟩)] =
      ({ m_dragging := false, m_beginPos := ⟨0, 0⟩, m_cursorPos := ⟨300, 20⟩,
         xRange := ⟨-1, 11⟩ }, [Intent.mark 5, Intent.clear]) ∧
    ∀ it ∈ (DataPlot.run Scenario.ctx (Scenario.idle (-1) 11)
      [(Scenario.shell Tool.Zoom [], Event.press ⟨300, 50⟩),
        (Scenario.shell Tool.Pan [], Event.move ⟨100, 20⟩),
        (Scenario.shell Tool.Measure [], Event.move ⟨300, 20⟩),
        (Scenario.shell Tool.Zero [], Event.release ⟨100, 20⟩)]).2, it.isCursor = true := by
  refine ⟨?_, (no_gesture_without_press_inside Scenario.ctx (Scenario.idle (-1) 11)
    [(Scenario.shell Tool.Zoom [], Event.press ⟨300, 50⟩),
      (Scenario.shell Tool.Pan [], Event.move ⟨100, 20⟩),
      (Scenario.shell Tool.Measure [], Event.move ⟨300, 20⟩),
      (Scenario.shell Tool.Zero [], Event.release ⟨100, 20⟩)] rfl (by decide)).2.1⟩
  simp [DataPlot.run, DataPlot.handle, DataPlot.mousePressEvent, DataPlot.mouseMoveEvent,
    DataPlot.mouseReleaseEvent, Scenario.ctx, Scenario.shell, Scenario.idle, DataPlot.init,
    QRect.contains, linearPixelToCoord]
  norm_num

/-- C12, as stated, fails: during a Measure drag anchored at pixel 50, a
move to the pixel (300, 50) outside the plotting rectangle emits a
cursor-clear and no measure intent. -/
theorem mouseMoveEvent_measure_counterexample :
    (DataPlot.mouseMoveEvent Scenario.ctx (Scenario.shell Tool.Measure [])
      (Scenario.dragging ⟨50, 10⟩ (-1) 11) ⟨300, 50⟩).2 = [Intent.clear] ∧
    ¬ ∀ c : QPoint, ∃ a b, Intent.measure a b ∈
      (DataPlot.mouseMoveEvent Scenario.ctx (Scenario.shell Tool.Measure [])
        (Scenario.dragging ⟨50, 10⟩ (-1) 11) c).2 := by
  have h : (DataPlot.mouseMoveEvent Scenario.ctx (Scenario.shell Tool.Measure [])
      (Scenario.dragging ⟨50, 10⟩ (-1) 11) ⟨300, 50⟩).2 = [Intent.clear] := by
    simp [DataPlot.mouseMoveEvent, Scenario.ctx, Scenario.shell, Scenario.dragging,
      QRect.contains]
  refine ⟨h, fun hall => ?_⟩
  obtain ⟨a, b, hab⟩ := hall ⟨300, 50⟩
  rw [h] at hab
  simp at hab

/-- C12, amended.  For a move to the pixel `c` while a drag is active and
the tool is Measure: when `c` is inside the plotting rectangle the move
emits exactly one intent, the measure intent with span
`(p(anchor.x), p(c.x))`; when `c` is outside the rectangle it emits exactly
a cursor-clear and no measure intent.  The anchor is kept, the drag stays
active and the window is not touched. -/
theorem mouseMoveEvent_measure (ctx : PlotContext K) (mw : MainWindow K) (s : DataPlot K)
    (c : QPoint) (hd : s.m_dragging = true) (ht : mw.tool = Tool.Measure) :
    (ctx.rect.contains c = true →
      (DataPlot.mouseMoveEvent ctx mw s c).2 =
        [Intent.measure (ctx.pixelToCoord s.xRange s.m_beginPos.x)
          (ctx.pixelToCoord s.xRange c.x)]) ∧
    (ctx.rect.contains c = false →
      (DataPlot.mouseMoveEvent ctx mw s c).2 = [Intent.clear]) ∧
    (DataPlot.mouseMoveEvent ctx mw s c).1 = { s with m_cursorPos := c } := by
  refine ⟨?_, ?_, ?_⟩
  · intro hc
    simp [DataPlot.mouseMoveEvent, hd, ht, hc]
  · intro hc
    simp [DataPlot.mouseMoveEvent, hd, ht, hc]
  · simp [DataPlot.mouseMoveEvent, hd, ht]

/-- The amended C12 on a Measure drag anchored at pixel 50 (t = 2): a move
to pixel 100 (t = 5) inside the rectangle emits measure(2, 5). -/
theorem mouseMoveEvent_measure_witness :
    (DataPlot.mouseMoveEvent Scenario.ctx (Scenario.shell Tool.Measure [])
      (Scenario.dragging ⟨50, 10⟩ (-1) 11) ⟨100, 20⟩).2 = [Intent.measure 2 5] := by
  rw [(mouseMoveEvent_measure Scenario.ctx (Scenario.shell Tool.Measure [])
    (Scenario.dragging ⟨50, 10⟩ (-1) 11) ⟨100, 20⟩ rfl rfl).1 (by decide)]
  simp [Scenario.ctx, Scenario.dragging, linearPixelToCoord]
  norm_num

/-- C13 (pan step).  For a move to the pixel `c` while a drag is active and
the tool is Pan, with the window `[l, u]` and the anchor `a`: the first
intent emitted is the window `[l + d, u + d]` with `d = p(a.x) - p(c.x)`,
followed by one cursor intent; the window has the width `u - l`; for
`c.x = a.x` it is the window `[l, u]` itself; and afterwards the anchor is
`c`, the cursor pixel is `c` and the drag is still active. -/
theorem mouseMoveEvent_pan_step (ctx : PlotContext K) (mw : MainWindow K) (s : DataPlot K)
    (c : QPoint) (hd : s.m_dragging = true) (ht : mw.tool = Tool.Pan) :
    (∃ fb : Intent K, fb.isCursor = true ∧
      (DataPlot.mouseMoveEvent ctx mw s c).2 =
        [Intent.setRange
          ⟨s.xRange.lower +
              (ctx.pixelToCoord s.xRange s.m_beginPos.x - ctx.pixelToCoord s.xRange c.x),
           s.xRange.upper +
              (ctx.pixelToCoord s.xRange s.m_beginPos.x - ctx.pixelToCoord s.xRange c.x)⟩,
          fb]) ∧
    (s.xRange.upper +
        (ctx.pixelToCoord s.xRange s.m_beginPos.x - ctx.pixelToCoord s.xRange c.x)) -
      (s.xRange.lower +
        (ctx.pixelToCoord s.xRange s.m_beginPos.x - ctx.pixelToCoord s.xRange c.x)) =
      s.xRange.upper - s.xRange.lower ∧
    (c.x = s.m_beginPos.x →
      ∃ fb : Intent K, (DataPlot.mouseMoveEvent ctx mw s c).2 =
        [Intent.setRange s.xRange, fb]) ∧
    (DataPlot.mouseMoveEvent ctx mw s c).1.m_beginPos = c ∧
    (DataPlot.mouseMoveEvent ctx mw s c).1.m_cursorPos = c ∧
    (DataPlot.mouseMoveEvent ctx mw s c).1.m_dragging = true := by
  have hout : ∃ fb : Intent K, fb.isCursor = true ∧
      (DataPlot.mouseMoveEvent ctx mw s c).2 =
        [Intent.setRange
          ⟨s.xRange.lower +
              (ctx.pixelToCoord s.xRange s.m_beginPos.x - ctx.pixelToCoord s.xRange c.x),
           s.xRange.upper +
              (ctx.pixelToCoord s.xRange s.m_beginPos.x - ctx.pixelToCoord s.xRange c.x)⟩,
          fb] := by
    by_cases hc : ctx.rect.contains c = true
    · exact ⟨Intent.mark (ctx.pixelToCoord (DataPlot.mouseMoveEvent ctx mw s c).1.xRange c.x),
        rfl, by simp [DataPlot.mouseMoveEvent, hd, ht, hc, afterShellSetRange_dragging,
          afterShellSetRange_cursorPos]⟩
    · exact ⟨Intent.clear, rfl, by simp [DataPlot.mouseMoveEvent, hd, ht, hc]⟩
  refine ⟨hout, by ring, ?_, ?_, ?_, ?_⟩
  · intro hx
    obtain ⟨fb, _, h⟩ := hout
    refine ⟨fb, ?_⟩
    rw [h, hx]
    simp
  · simp [DataPlot.mouseMoveEvent, hd, ht, afterShellSetRange_cursorPos]
  · simp [DataPlot.mouseMoveEvent, hd, ht, afterShellSetRange_cursorPos]
  · simp [DataPlot.mouseMoveEvent, hd, ht, afterShellSetRange_dragging]

/-- C13 on a Pan drag anchored at pixel 50 (t = 2) on the window [-1, 11]:
the move to pixel 100 (t = 5) emits the window [-4, 8] first and leaves the
anchor at pixel 100 with the drag active. -/
theorem mouseMoveEvent_pan_step_witness :
    DataPlot.mouseMoveEvent Scenario.ctx (Scenario.shell Tool.Pan [])
        (Scenario.dragging ⟨50, 10⟩ (-1) 11) ⟨100, 20⟩ =
      ({ m_dragging := true, m_beginPos := ⟨100, 20⟩, m_cursorPos := ⟨100, 20⟩,
         xRange := ⟨-4, 8⟩ }, [Intent.setRange ⟨-4, 8⟩, Intent.mark 2]) ∧
    (DataPlot.mouseMoveEvent Scenario.ctx (Scenario.shell Tool.Pan [])
        (Scenario.dragging ⟨50, 10⟩ (-1) 11) ⟨100, 20⟩).1.m_beginPos = ⟨100, 20⟩ := by
  refine ⟨?_, (mouseMoveEvent_pan_step Scenario.ctx (Scenario.shell Tool.Pan [])
    (Scenario.dragging ⟨50, 10⟩ (-1) 11) ⟨100, 20⟩ rfl rfl).2.2.2.1⟩
  simp [DataPlot.mouseMoveEvent, DataPlot.afterShellSetRange, DataPlot.setRange,
    Scenario.ctx, Scenario.shell, Scenario.dragging, QRect.contains, linearPixelToCoord]
  norm_num

/-- C17 (cursor mark / clear on move).  Every move to a pixel `c` emits
exactly one of measure, cursor-mark and cursor-clear, as its last intent,
preceded by at most one window (the pan shift).  When `c` is inside the
plotting rectangle and the handler is not in a Measure drag, that intent is
the cursor-mark at `p(c.x)`, `p` being the pixel map of the time axis when
the mark is emitted, and no cursor-clear is emitted; unless a Pan drag is
active, `p` is the map of the axis as the move found it and the mark is the
only intent.  When `c` is outside the rectangle and no drag is active, the
cursor-clear is the only intent.  Every move leaves the tracked cursor
pixel at `c`. -/
theorem mouseMoveEvent_cursor (ctx : PlotContext K) (mw : MainWindow K) (s : DataPlot K)
    (c : QPoint) :
    ((DataPlot.mouseMoveEvent ctx mw s c).2.filter Intent.isCursorOrMeasure).length = 1 ∧
    (∃ fb : Intent K, fb.isCursorOrMeasure = true ∧
      ((DataPlot.mouseMoveEvent ctx mw s c).2 = [fb] ∨
        ∃ r, (DataPlot.mouseMoveEvent ctx mw s c).2 = [Intent.setRange r, fb])) ∧
    (ctx.rect.contains c = true → ¬ (s.m_dragging = true ∧ mw.tool = Tool.Measure) →
      Intent.mark (ctx.pixelToCoord (DataPlot.mouseMoveEvent ctx mw s c).1.xRange c.x) ∈
        (DataPlot.mouseMoveEvent ctx mw s c).2 ∧
      Intent.clear ∉ (DataPlot.mouseMoveEvent ctx mw s c).2) ∧
    (ctx.rect.contains c = true → ¬ (s.m_dragging = true ∧ mw.tool = Tool.Measure) →
      ¬ (s.m_dragging = true ∧ mw.tool = Tool.Pan) →
      (DataPlot.mouseMoveEvent ctx mw s c).2 = [Intent.mark (ctx.pixelToCoord s.xRange c.x)]) ∧
    (ctx.rect.contains c = false → s.m_dragging = false →
      (DataPlot.mouseMoveEvent ctx mw s c).2 = [Intent.clear]) ∧
    (DataPlot.mouseMoveEvent ctx mw s c).1.m_cursorPos = c := by
  by_cases hd : s.m_dragging = true <;> by_cases hc : ctx.rect.contains c = true <;>
    cases ht : mw.tool <;>
    simp [DataPlot.mouseMoveEvent, hd, hc, ht, Intent.isCursorOrMeasure,
      afterShellSetRange_dragging, afterShellSetRange_cursorPos]

/-- C17 on the window [-1, 11]: an idle move to pixel 100 emits the mark at
t = 5; an idle move to (300, 50), outside the rectangle, emits the clear; a
Pan-drag move from pixel 50 to pixel 100 emits the window [-4, 8] and then
the mark at 2, the coordinate of pixel 100 on the window [-4, 8]. -/
theorem mouseMoveEvent_cursor_witness :
    (DataPlot.mouseMoveEvent Scenario.ctx (Scenario.shell Tool.Zoom [])
      (Scenario.idle (-1) 11) ⟨100, 20⟩).2 = [Intent.mark 5] ∧
    (DataPlot.mouseMoveEvent Scenario.ctx (Scenario.shell Tool.Zoom [])
      (Scenario.idle (-1) 11) ⟨300, 50⟩).2 = [Intent.clear] ∧
    (DataPlot.mouseMoveEvent Scenario.ctx (Scenario.shell Tool.Pan [])
      (Scenario.dragging ⟨50, 10⟩ (-1) 11) ⟨100, 20⟩).2 =
      [Intent.setRange ⟨-4, 8⟩, Intent.mark 2] ∧
    Scenario.ctx.pixelToCoord ⟨-4, 8⟩ 100 = 2 := by
  refine ⟨?_, (mouseMoveEvent_cursor Scenario.ctx (Scenario.shell Tool.Zoom [])
    (Scenario.idle (-1) 11) ⟨300, 50⟩).2.2.2.2.1 (by decide) rfl, ?_, ?_⟩
  · rw [(mouseMoveEvent_cursor Scenario.ctx (Scenario.shell Tool.Zoom [])
      (Scenario.idle (-1) 11) ⟨100, 20⟩).2.2.2.1 (by decide) (by decide) (by decide)]
    simp [Scenario.ctx, Scenario.idle, DataPlot.init, linearPixelToCoord]
    norm_num
  · simp [DataPlot.mouseMoveEvent, DataPlot.afterShellSetRange, DataPlot.setRange,
      Scenario.ctx, Scenario.shell, Scenario.dragging, QRect.contains, linearPixelToCoord]
    norm_num
  · simp [Scenario.ctx, linearPixelToCoord]
    norm_num

end Moves

/-! ## Units, titles and the axis handle -/

section Catalog

variable {K : Type} [LinearOrderedField K]

/-- C14 (unit-invariant metrics).  For each of Dive Angle, Dive Rate, Glide
Ratio, Number of Satellites, Time, Acceleration, Total Energy, Energy Rate,
Lift Coefficient and Drag Coefficient, `value` is the same under Metric and
Imperial for every sample and so is `title`; for each of the nine other
metrics `title(Metric)` differs from `title(Imperial)`. -/
theorem unit_invariant_metrics :
    (∀ c ∈ [PlotClass.PlotDiveAngle, PlotClass.PlotCurvature, PlotClass.PlotGlideRatio,
        PlotClass.PlotNumberOfSatellites, PlotClass.PlotTime, PlotClass.PlotAcceleration,
        PlotClass.PlotTotalEnergy, PlotClass.PlotEnergyRate, PlotClass.PlotLift,
        PlotClass.PlotDrag],
      (∀ dp : DataPoint K, c.value dp Units.Metric = c.value dp Units.Imperial) ∧
      c.titleUnits Units.Metric = c.titleUnits Units.Imperial) ∧
    (∀ c : PlotClass,
      c ∉ [PlotClass.PlotDiveAngle, PlotClass.PlotCurvature, PlotClass.PlotGlideRatio,
        PlotClass.PlotNumberOfSatellites, PlotClass.PlotTime, PlotClass.PlotAcceleration,
        PlotClass.PlotTotalEnergy, PlotClass.PlotEnergyRate, PlotClass.PlotLift,
        PlotClass.PlotDrag] →
      c.titleUnits Units.Metric ≠ c.titleUnits Units.Imperial) ∧
    (∀ c : PlotClass,
      c ∉ [PlotClass.PlotDiveAngle, PlotClass.PlotCurvature, PlotClass.PlotGlideRatio,
        PlotClass.PlotNumberOfSatellites, PlotClass.PlotTime, PlotClass.PlotAcceleration,
        PlotClass.PlotTotalEnergy, PlotClass.PlotEnergyRate, PlotClass.PlotLift,
        PlotClass.PlotDrag] ↔
      c ∈ [PlotClass.PlotElevation, PlotClass.PlotVerticalSpeed,
        PlotClass.PlotHorizontalSpeed, PlotClass.PlotTotalSpeed,
        PlotClass.PlotHorizontalAccuracy, PlotClass.PlotVerticalAccuracy,
        PlotClass.PlotSpeedAccuracy, PlotClass.PlotDistance2D, PlotClass.PlotDistance3D]) := by
  refine ⟨?_, ?_, ?_⟩
  · intro c hc
    simp only [List.mem_cons, List.mem_singleton, List.not_mem_nil, or_false] at hc
    rcases hc with rfl | rfl | rfl | rfl | rfl | rfl | rfl | rfl | rfl | rfl <;>
      exact ⟨fun dp => rfl, rfl⟩
  · intro c hc
    cases c <;> first
      | exact absurd (by decide) hc
      | decide
  · intro c
    cases c <;> decide

/-- C14 at the dive angle (same title and value under both unit systems)
and at the elevation (titles "Elevation (m)" and "Elevation (ft)"). -/
theorem unit_invariant_metrics_witness :
    (PlotClass.PlotDiveAngle.titleUnits Units.Metric = "Dive Angle (deg)" ∧
      PlotClass.PlotDiveAngle.titleUnits Units.Imperial = "Dive Angle (deg)") ∧
    (PlotClass.PlotElevation.titleUnits Units.Metric = "Elevation (m)" ∧
      PlotClass.PlotElevation.titleUnits Units.Imperial = "Elevation (ft)") ∧
    PlotClass.PlotDiveAngle.value (Scenario.sample 1 100) Units.Metric =
      PlotClass.PlotDiveAngle.value (Scenario.sample 1 100) Units.Imperial ∧
    PlotClass.PlotElevation.titleUnits Units.Metric ≠
      PlotClass.PlotElevation.titleUnits Units.Imperial :=
  ⟨by decide, by decide,
    ((unit_invariant_metrics).1 PlotClass.PlotDiveAngle (by decide)).1 (Scenario.sample 1 100),
    (@unit_invariant_metrics ℚ _).2.1 PlotClass.PlotElevation (by decide)⟩

/-- C20 (unit suffix and conversion factor agree).  With `q` the raw
quantity of the sample: Elevation, Horizontal Accuracy, Vertical Accuracy,
Horizontal Distance and Total Distance are titled with " (m)" and return
`q` under Metric, and are titled with " (ft)" and return `q * 3.28084`
under Imperial; Vertical Speed, Horizontal Speed, Total Speed and Speed
Accuracy are titled with " (km/h)" and return `q * 3.6` under Metric, and
are titled with " (mph)" and return `q * 2.23694` under Imperial; and for
every metric of the catalog and every unit system, a title with one of the
four suffixes goes with the factor of that suffix. -/
theorem unit_suffix_matches_factor (dp : DataPoint K) :
    (∀ c ∈ [PlotClass.PlotElevation, PlotClass.PlotHorizontalAccuracy,
        PlotClass.PlotVerticalAccuracy, PlotClass.PlotDistance2D, PlotClass.PlotDistance3D],
      c.titleUnits Units.Metric = c.title ++ " (m)" ∧
      c.value dp Units.Metric = c.quantity dp ∧
      c.titleUnits Units.Imperial = c.title ++ " (ft)" ∧
      c.value dp Units.Imperial = c.quantity dp * 3.28084) ∧
    (∀ c ∈ [PlotClass.PlotVerticalSpeed, PlotClass.PlotHorizontalSpeed,
        PlotClass.PlotTotalSpeed, PlotClass.PlotSpeedAccuracy],
      c.titleUnits Units.Metric = c.title ++ " (km/h)" ∧
      c.value dp Units.Metric = c.quantity dp * 3.6 ∧
      c.titleUnits Units.Imperial = c.title ++ " (mph)" ∧
      c.value dp Units.Imperial = c.quantity dp * 2.23694) ∧
    (∀ (c : PlotClass) (units : Units),
      (c.titleUnits units = c.title ++ " (m)" → c.value dp units = c.quantity dp) ∧
      (c.titleUnits units = c.title ++ " (ft)" →
        c.value dp units = c.quantity dp * 3.28084) ∧
      (c.titleUnits units = c.title ++ " (km/h)" →
        c.value dp units = c.quantity dp * 3.6) ∧
      (c.titleUnits units = c.title ++ " (mph)" →
        c.value dp units = c.quantity dp * 2.23694)) := by
  refine ⟨?_, ?_, ?_⟩
  · intro c hc
    simp only [List.mem_cons, List.mem_singleton, List.not_mem_nil, or_false] at hc
    rcases hc with rfl | rfl | rfl | rfl | rfl <;>
      exact ⟨rfl, rfl, rfl, rfl⟩
  · intro c hc
    simp only [List.mem_cons, List.mem_singleton, List.not_mem_nil, or_false] at hc
    rcases hc with rfl | rfl | rfl | rfl <;>
      exact ⟨rfl, rfl, rfl, rfl⟩
  · intro c units
    cases c <;> cases units <;>
      refine ⟨?_, ?_, ?_, ?_⟩ <;>
      first
        | (intro _; rfl)
        | (intro h; exact absurd h (by decide))

/-- C20 at a sample of elevation 100 and at one of vertical speed 10:
"Elevation (ft)" goes with 100 * 3.28084 = 328.084, "Vertical Speed (km/h)"
with 10 * 3.6 = 36 and "Vertical Speed (mph)" with 10 * 2.23694 =
22.3694. -/
theorem unit_suffix_matches_factor_witness :
    (PlotClass.PlotElevation.titleUnits Units.Imperial = "Elevation (ft)" ∧
      PlotClass.PlotElevation.value (Scenario.sample 1 100) Units.Imperial = 328.084) ∧
    (PlotClass.PlotElevation.titleUnits Units.Metric = "Elevation (m)" ∧
      PlotClass.PlotElevation.value (Scenario.sample 1 100) Units.Metric = 100) ∧
    (PlotClass.PlotVerticalSpeed.titleUnits Units.Metric = "Vertical Speed (km/h)" ∧
      PlotClass.PlotVerticalSpeed.value
        ({ Scenario.sample 1 100 with verticalSpeed := 10 } : DataPoint ℚ) Units.Metric = 36) ∧
    (PlotClass.PlotVerticalSpeed.titleUnits Units.Imperial = "Vertical Speed (mph)" ∧
      PlotClass.PlotVerticalSpeed.value
        ({ Scenario.sample 1 100 with verticalSpeed := 10 } : DataPoint ℚ) Units.Imperial =
        22.3694) := by
  refine ⟨⟨by decide, ?_⟩, ⟨by decide, ?_⟩, ⟨by decide, ?_⟩, ⟨by decide, ?_⟩⟩
  · rw [((unit_suffix_matches_factor (Scenario.sample 1 100)).1 PlotClass.PlotElevation
      (by decide)).2.2.2]
    norm_num [PlotClass.quantity, Scenario.sample]
  · norm_num [PlotClass.value, Scenario.sample]
  · norm_num [PlotClass.value, Scenario.sample, MPS_TO_KMH]
  · simp only [PlotClass.value]
    rw [if_neg (by decide)]
    norm_num [MPS_TO_MPH]

/-- C16, as stated, fails: the elevation metric is constructed visible
with no axis assigned; `setVisible(true)` on the freshly constructed
vertical-speed metric makes it visible with no axis; and `addAxis` on the
freshly constructed vertical-speed metric assigns an axis to an invisible
metric. -/
theorem visibility_axis_coupling_counterexample :
    ((PlotValue.new PlotClass.PlotElevation).mVisible = true ∧
      (PlotValue.new PlotClass.PlotElevation).mAxis = none ∧
      (PlotValue.new PlotClass.PlotElevation).coupled = false) ∧
    (((PlotValue.new PlotClass.PlotVerticalSpeed).setVisible true).mVisible = true ∧
      ((PlotValue.new PlotClass.PlotVerticalSpeed).setVisible true).mAxis = none ∧
      ((PlotValue.new PlotClass.PlotVerticalSpeed).setVisible true).coupled = false) ∧
    (((PlotValue.new PlotClass.PlotVerticalSpeed).addAxis 1 Units.Metric).1.mVisible = false ∧
      ((PlotValue.new PlotClass.PlotVerticalSpeed).addAxis 1 Units.Metric).1.mAxis = some 1 ∧
      ((PlotValue.new PlotClass.PlotVerticalSpeed).addAxis 1 Units.Metric).1.coupled = false) := by
  decide

/-- C16, amended.  The operations of `PlotValue` treat visibility and the
axis handle separately: construction leaves the axis unassigned and sets
the default visibility, so a fresh metric is coupled exactly when it is
constructed invisible (every class but the elevation); `setVisible(v)` sets
the visibility to `v` and keeps the axis handle; `addAxis` assigns the axis
and keeps the visibility, so its result is coupled exactly when the metric
is visible; `readSettings` keeps the axis handle; and `setColor` keeps
both, hence the coupling. -/
theorem visibility_axis_operations (m : PlotValue) (c : PlotClass) (v : Bool)
    (col : QColor) (h : Nat) (units : Units) (st : QSettings) :
    ((PlotValue.new c).mAxis = none ∧ (PlotValue.new c).mVisible = c.defaultVisible ∧
      ((PlotValue.new c).coupled = true ↔ c ≠ PlotClass.PlotElevation)) ∧
    ((m.setVisible v).mVisible = v ∧ (m.setVisible v).mAxis = m.mAxis) ∧
    ((m.addAxis h units).1.mAxis = some h ∧ (m.addAxis h units).1.mVisible = m.mVisible ∧
      ((m.addAxis h units).1.coupled = true ↔ m.mVisible = true)) ∧
    (m.readSettings st).mAxis = m.mAxis ∧
    ((m.setColor col).mVisible = m.mVisible ∧ (m.setColor col).mAxis = m.mAxis ∧
      (m.setColor col).coupled = m.coupled) := by
  refine ⟨⟨rfl, rfl, ?_⟩, ⟨rfl, rfl⟩, ⟨rfl, rfl, ?_⟩, rfl, ⟨rfl, rfl, rfl⟩⟩
  · cases c <;> decide
  · simp [PlotValue.addAxis, PlotValue.coupled]

/-- The amended C16 on an invisible metric that is made visible and then
given the axis 1: the state is coupled only after both calls. -/
theorem visibility_axis_operations_witness :
    ((PlotValue.new PlotClass.PlotVerticalSpeed).setVisible true).coupled = false ∧
    ((((PlotValue.new PlotClass.PlotVerticalSpeed).setVisible true).addAxis 1
      Units.Metric).1.coupled = true ↔
      ((PlotValue.new PlotClass.PlotVerticalSpeed).setVisible true).mVisible = true) ∧
    (((PlotValue.new PlotClass.PlotVerticalSpeed).setVisible true).addAxis 1 Units.Metric) =
      ({ cls := PlotClass.PlotVerticalSpeed, mVisible := true, mColor := Qt.green,
         mAxis := some 1 },
       { labelColor := Qt.green, tickLabelColor := Qt.green, basePen := Qt.green,
         tickPen := Qt.green, subTickPen := Qt.green, label := "Vertical Speed (km/h)" }) :=
  ⟨by decide,
    (visibility_axis_operations ((PlotValue.new PlotClass.PlotVerticalSpeed).setVisible true)
      PlotClass.PlotVerticalSpeed true Qt.green 1 Units.Metric []).2.2.1.2.2,
    by decide⟩

end Catalog

/-! ## Wheel zoom over the reals -/

section WheelReal

theorem neg_div_neg_iff_int (d : Int) : -(d : ℝ) / 500 < 0 ↔ 0 < d := by
  constructor
  · intro h
    have h1 : (0 : ℝ) < (d : ℝ) := by linarith
    exact Int.cast_pos.mp h1
  · intro h
    have h1 : (0 : ℝ) < (d : ℝ) := Int.cast_pos.mpr h
    linarith

theorem neg_div_pos_iff_int (d : Int) : 0 < -(d : ℝ) / 500 ↔ d < 0 := by
  constructor
  · intro h
    have h1 : (d : ℝ) < 0 := by linarith
    exact_mod_cast h1
  · intro h
    have h1 : (d : ℝ) < 0 := by exact_mod_cast h
    linarith

/-- C15 (wheel direction).  With `exp` the real exponential, for a wheel
event inside the plotting rectangle on a window with `lower < upper`: the
factor `exp(-deltaY/500)` is below 1 exactly when `deltaY > 0`, equal to 1
exactly when `deltaY = 0` and above 1 exactly when `deltaY < 0`; the event
emits one window, whose width is the factor times the old width, so it is
strictly narrower for `deltaY > 0`, strictly wider for `deltaY < 0` and the
old window for `deltaY = 0`. -/
theorem wheel_direction (ctx : PlotContext ℝ) (mw : MainWindow ℝ) (s : DataPlot ℝ)
    (pos : QPoint) (deltaY : Int) (hexp : ctx.exp = Real.exp)
    (hin : ctx.rect.contains pos = true) (hlt : s.xRange.lower < s.xRange.upper) :
    (ctx.exp (-(deltaY : ℝ) / 500) < 1 ↔ 0 < deltaY) ∧
    (ctx.exp (-(deltaY : ℝ) / 500) = 1 ↔ deltaY = 0) ∧
    (1 < ctx.exp (-(deltaY : ℝ) / 500) ↔ deltaY < 0) ∧
    ∃ r : QCPRange ℝ, (DataPlot.wheelEvent ctx mw s pos deltaY).2 = [Intent.setRange r] ∧
      r.upper - r.lower =
        ctx.exp (-(deltaY : ℝ) / 500) * (s.xRange.upper - s.xRange.lower) ∧
      (0 < deltaY → r.upper - r.lower < s.xRange.upper - s.xRange.lower) ∧
      (deltaY < 0 → s.xRange.upper - s.xRange.lower < r.upper - r.lower) ∧
      (deltaY = 0 → r = s.xRange) := by
  have hw : 0 < s.xRange.upper - s.xRange.lower := sub_pos.mpr hlt
  have h1 : ctx.exp (-(deltaY : ℝ) / 500) < 1 ↔ 0 < deltaY := by
    rw [hexp, Real.exp_lt_one_iff]
    exact neg_div_neg_iff_int deltaY
  have h2 : ctx.exp (-(deltaY : ℝ) / 500) = 1 ↔ deltaY = 0 := by
    rw [hexp, Real.exp_eq_one_iff]
    constructor
    · intro h
      have h3 : (deltaY : ℝ) = 0 := by linarith
      exact_mod_cast h3
    · intro h
      rw [h]
      simp
  have h3 : 1 < ctx.exp (-(deltaY : ℝ) / 500) ↔ deltaY < 0 := by
    rw [hexp, Real.one_lt_exp_iff]
    exact neg_div_pos_iff_int deltaY
  refine ⟨h1, h2, h3,
    DataPlot.wheelRange s.xRange (ctx.pixelToCoord s.xRange pos.x)
      (ctx.exp (-(deltaY : ℝ) / 500)), ?_, ?_, ?_, ?_, ?_⟩
  · simp [DataPlot.wheelEvent, hin, Int.cast_neg]
  · simp only [DataPlot.wheelRange]
    ring
  · intro hd
    have hf := h1.mpr hd
    simp only [DataPlot.wheelRange]
    nlinarith
  · intro hd
    have hf := h3.mpr hd
    simp only [DataPlot.wheelRange]
    nlinarith
  · intro hd
    rw [h2.mpr hd]
    cases hr : s.xRange with
    | mk l u => simp [DataPlot.wheelRange]

/-- Scenario E for C15: deltaY = +500 with the cursor at pixel 100 (t = 5)
on the window [0, 10] emits `[5 - 5*exp(-1), 5 + 5*exp(-1)]`, which lies
within 0.01 of [3.16, 6.84] and is narrower than the window [0, 10]. -/
theorem wheel_direction_witness :
    (∃ r : QCPRange ℝ,
      (DataPlot.wheelEvent
        ({ rect := ⟨0, 0, 199, 99⟩, pixelToCoord := linearPixelToCoord 0 200,
           exp := Real.exp } : PlotContext ℝ)
        { tool := Tool.Pan, units := Units.Metric, xValue := PlotClass.PlotTime,
          yValues := [], data := [], onSetRange := fun r => some r }
        (DataPlot.init ⟨0, 10⟩) ⟨100, 50⟩ 500).2 = [Intent.setRange r] ∧
      r.upper - r.lower < 10 - 0) ∧
    (DataPlot.wheelEvent
      ({ rect := ⟨0, 0, 199, 99⟩, pixelToCoord := linearPixelToCoord 0 200,
         exp := Real.exp } : PlotContext ℝ)
      { tool := Tool.Pan, units := Units.Metric, xValue := PlotClass.PlotTime,
        yValues := [], data := [], onSetRange := fun r => some r }
      (DataPlot.init ⟨0, 10⟩) ⟨100, 50⟩ 500).2 =
      [Intent.setRange ⟨5 - 5 * Real.exp (-1), 5 + 5 * Real.exp (-1)⟩] ∧
    (3.16 < 5 - 5 * Real.exp (-1) ∧ 5 - 5 * Real.exp (-1) < 3.17) ∧
    (6.83 < 5 + 5 * Real.exp (-1) ∧ 5 + 5 * Real.exp (-1) < 6.84) := by
  have hlo : (0.366 : ℝ) < Real.exp (-1) := by
    rw [Real.exp_neg, lt_inv_comm₀ (by norm_num) (Real.exp_pos 1)]
    exact lt_trans Real.exp_one_lt_d9 (by norm_num)
  have hhi : Real.exp (-1) < (0.368 : ℝ) := by
    rw [Real.exp_neg, inv_lt_comm₀ (Real.exp_pos 1) (by norm_num)]
    exact lt_trans (by norm_num) Real.exp_one_gt_d9
  refine ⟨?_, ?_, ⟨by linarith, by linarith⟩, ⟨by linarith, by linarith⟩⟩
  · obtain ⟨_, _, _, r, hr, _, hn, _, _⟩ := wheel_direction
      ({ rect := ⟨0, 0, 199, 99⟩, pixelToCoord := linearPixelToCoord 0 200,
         exp := Real.exp } : PlotContext ℝ)
      { tool := Tool.Pan, units := Units.Metric, xValue := PlotClass.PlotTime,
        yValues := [], data := [], onSetRange := fun r => some r }
      (DataPlot.init ⟨0, 10⟩) ⟨100, 50⟩ 500 rfl (by decide)
      (by simp [DataPlot.init])
    exact ⟨r, hr, by simpa [DataPlot.init] using hn (by norm_num)⟩
  · simp [DataPlot.wheelEvent, DataPlot.wheelRange, DataPlot.init, QRect.contains,
      linearPixelToCoord]
    norm_num
    ring

/-- A wheel event inside the rectangle, with a shell that applies the
requested window: the window emitted is the window of the axis
afterwards. -/
theorem wheelEvent_applied {K : Type} [LinearOrderedField K] (ctx : PlotContext K)
    (mw : MainWindow K) (s : DataPlot K) (pos : QPoint) (d : Int)
    (hin : ctx.rect.contains pos = true) (ha : ∀ r, mw.onSetRange r = some r) :
    DataPlot.wheelEvent ctx mw s pos d =
      ({ s with xRange := (DataPlot.wheelRange s.xRange (ctx.pixelToCoord s.xRange pos.x)
          (ctx.exp (-(d : K) / 500))) },
       [Intent.setRange (DataPlot.wheelRange s.xRange (ctx.pixelToCoord s.xRange pos.x)
          (ctx.exp (-(d : K) / 500)))]) := by
  simp [DataPlot.wheelEvent, DataPlot.afterShellSetRange, DataPlot.setRange, hin, ha,
    Int.cast_neg]

/-- On a linear axis the pixel under the cursor keeps its coordinate when
the window is zoomed about that coordinate. -/
theorem linearPixelToCoord_wheelRange {K : Type} [LinearOrderedField K] (left width : K)
    (r : QCPRange K) (px : Int) (f : K) :
    linearPixelToCoord left width
        (DataPlot.wheelRange r (linearPixelToCoord left width r px) f) px =
      linearPixelToCoord left width r px := by
  simp only [linearPixelToCoord, DataPlot.wheelRange]
  ring

theorem wheelRange_wheelRange {K : Type} [LinearOrderedField K] (r : QCPRange K)
    (x f1 f2 : K) :
    DataPlot.wheelRange (DataPlot.wheelRange r x f1) x f2 = DataPlot.wheelRange r x (f1 * f2) := by
  simp only [DataPlot.wheelRange, QCPRange.mk.injEq]
  constructor <;> ring

theorem wheelRange_one {K : Type} [LinearOrderedField K] (r : QCPRange K) (x : K) :
    DataPlot.wheelRange r x 1 = r := by
  cases r with
  | mk l u => simp [DataPlot.wheelRange]

theorem exp_wheel_add (e1 e2 : ℝ) :
    Real.exp (-e1 / 500) * Real.exp (-e2 / 500) = Real.exp (-(e1 + e2) / 500) := by
  rw [← Real.exp_add]
  congr 1
  ring

/-- C18 (wheel notches compound multiplicatively).  Over the reals, with
`exp` the real exponential: applying the wheel window formula at the
coordinate `x` with the delta `e1` and then again at `x` with `e2` gives the
window of the single delta `e1 + e2`, and a delta followed by its negative
gives the window back.  On a linear axis whose shell applies each window,
two wheel events at the same pixel inside the rectangle with the deltas
`d1` and `d2` leave the same state and emit as their last window the same
window as the single event with `d1 + d2`, and `d1` followed by `-d1`
restores the state the first event found. -/
theorem wheel_compounds (ctx : PlotContext ℝ) (mw1 mw2 : MainWindow ℝ) (s : DataPlot ℝ)
    (pos : QPoint) (d1 d2 : Int) (left width : ℝ) (hexp : ctx.exp = Real.exp)
    (hlin : ctx.pixelToCoord = linearPixelToCoord left width)
    (hin : ctx.rect.contains pos = true) (h1 : ∀ r, mw1.onSetRange r = some r)
    (h2 : ∀ r, mw2.onSetRange r = some r) :
    (∀ (r : QCPRange ℝ) (x e1 e2 : ℝ),
      DataPlot.wheelRange (DataPlot.wheelRange r x (Real.exp (-e1 / 500))) x
          (Real.exp (-e2 / 500)) =
        DataPlot.wheelRange r x (Real.exp (-(e1 + e2) / 500))) ∧
    (∀ (r : QCPRange ℝ) (x e : ℝ),
      DataPlot.wheelRange (DataPlot.wheelRange r x (Real.exp (-e / 500))) x
          (Real.exp (-(-e) / 500)) = r) ∧
    DataPlot.wheelEvent ctx mw2 (DataPlot.wheelEvent ctx mw1 s pos d1).1 pos d2 =
      DataPlot.wheelEvent ctx mw1 s pos (d1 + d2) ∧
    DataPlot.wheelEvent ctx mw2 (DataPlot.wheelEvent ctx mw1 s pos d1).1 pos (-d1) =
      (s, [Intent.setRange s.xRange]) := by
  have hform : ∀ (r : QCPRange ℝ) (x e1 e2 : ℝ),
      DataPlot.wheelRange (DataPlot.wheelRange r x (Real.exp (-e1 / 500))) x
          (Real.exp (-e2 / 500)) =
        DataPlot.wheelRange r x (Real.exp (-(e1 + e2) / 500)) := by
    intro r x e1 e2
    rw [wheelRange_wheelRange, exp_wheel_add]
  have hinv : ∀ (r : QCPRange ℝ) (x e : ℝ),
      DataPlot.wheelRange (DataPlot.wheelRange r x (Real.exp (-e / 500))) x
          (Real.exp (-(-e) / 500)) = r := by
    intro r x e
    rw [hform r x e (-e)]
    simp [wheelRange_one]
  have hprog : ∀ e2 : Int,
      DataPlot.wheelEvent ctx mw2 (DataPlot.wheelEvent ctx mw1 s pos d1).1 pos e2 =
        DataPlot.wheelEvent ctx mw1 s pos (d1 + e2) := by
    intro e2
    rw [wheelEvent_applied ctx mw1 s pos d1 hin h1, wheelEvent_applied ctx mw2 _ pos e2 hin h2,
      wheelEvent_applied ctx mw1 s pos (d1 + e2) hin h1]
    simp only [hlin, hexp, linearPixelToCoord_wheelRange, Int.cast_add]
    rw [hform]
  refine ⟨hform, hinv, hprog d2, ?_⟩
  rw [hprog (-d1), wheelEvent_applied ctx mw1 s pos _ hin h1]
  simp [hexp, wheelRange_one]

/-- C18 over the reals on the window [0, 10] with the cursor at pixel 40
(t = 2): wheel deltas 120 and then 240 leave the window of the single delta
360, which is `[2 - 2*exp(-360/500), 2 + 8*exp(-360/500)]`. -/
theorem wheel_compounds_witness :
    (DataPlot.wheelEvent
        ({ rect := ⟨0, 0, 199, 99⟩, pixelToCoord := linearPixelToCoord 0 200,
           exp := Real.exp } : PlotContext ℝ)
        { tool := Tool.Zoom, units := Units.Metric, xValue := PlotClass.PlotTime,
          yValues := [], data := [], onSetRange := fun r => some r }
        (DataPlot.wheelEvent
          ({ rect := ⟨0, 0, 199, 99⟩, pixelToCoord := linearPixelToCoord 0 200,
             exp := Real.exp } : PlotContext ℝ)
          { tool := Tool.Pan, units := Units.Metric, xValue := PlotClass.PlotTime,
            yValues := [], data := [], onSetRange := fun r => some r }
          (DataPlot.init ⟨0, 10⟩) ⟨40, 50⟩ 120).1 ⟨40, 50⟩ 240).1.xRange =
      ⟨2 - 2 * Real.exp (-360 / 500), 2 + 8 * Real.exp (-360 / 500)⟩ := by
  rw [(wheel_compounds
      ({ rect := ⟨0, 0, 199, 99⟩, pixelToCoord := linearPixelToCoord 0 200,
         exp := Real.exp } : PlotContext ℝ)
      { tool := Tool.Pan, units := Units.Metric, xValue := PlotClass.PlotTime,
        yValues := [], data := [], onSetRange := fun r => some r }
      { tool := Tool.Zoom, units := Units.Metric, xValue := PlotClass.PlotTime,
        yValues := [], data := [], onSetRange := fun r => some r }
      (DataPlot.init ⟨0, 10⟩) ⟨40, 50⟩ 120 240 0 200 rfl rfl (by decide)
      (fun _ => rfl) (fun _ => rfl)).2.2.1]
  simp [DataPlot.wheelEvent, DataPlot.wheelRange, DataPlot.init, QRect.contains,
    linearPixelToCoord, DataPlot.afterShellSetRange, DataPlot.setRange]
  norm_num
  ring

end WheelReal

/-! ## Pan drags on a linear axis -/

section Pan

variable {K : Type} [LinearOrderedField K]

/-- A Pan-drag move with a shell that applies the requested window: the
state afterwards. -/
theorem mouseMoveEvent_pan_applied (ctx : PlotContext K) (mw : MainWindow K)
    (s : DataPlot K) (c : QPoint) (hd : s.m_dragging = true) (ht : mw.tool = Tool.Pan)
    (ha : ∀ r, mw.onSetRange r = some r) :
    (DataPlot.mouseMoveEvent ctx mw s c).1 =
      { m_dragging := true, m_beginPos := c, m_cursorPos := c,
        xRange :=
          ⟨s.xRange.lower +
              (ctx.pixelToCoord s.xRange s.m_beginPos.x - ctx.pixelToCoord s.xRange c.x),
           s.xRange.upper +
              (ctx.pixelToCoord s.xRange s.m_beginPos.x - ctx.pixelToCoord s.xRange c.x)⟩ } := by
  simp [DataPlot.mouseMoveEvent, DataPlot.afterShellSetRange, DataPlot.setRange, hd, ht, ha]

/-- Two Pan-drag moves in a row on a linear axis leave the state of the
second move alone. -/
theorem mouseMoveEvent_pan_twice (ctx : PlotContext K) (left width : K)
    (hlin : ctx.pixelToCoord = linearPixelToCoord left width)
    (mw1 mw2 : MainWindow K) (s : DataPlot K) (c1 c : QPoint) (hd : s.m_dragging = true)
    (ht1 : mw1.tool = Tool.Pan) (ha1 : ∀ r, mw1.onSetRange r = some r)
    (ht2 : mw2.tool = Tool.Pan) (ha2 : ∀ r, mw2.onSetRange r = some r) :
    (DataPlot.mouseMoveEvent ctx mw2 (DataPlot.mouseMoveEvent ctx mw1 s c1).1 c).1 =
      (DataPlot.mouseMoveEvent ctx mw2 s c).1 := by
  rw [mouseMoveEvent_pan_applied ctx mw1 s c1 hd ht1 ha1,
    mouseMoveEvent_pan_applied ctx mw2 _ c rfl ht2 ha2,
    mouseMoveEvent_pan_applied ctx mw2 s c hd ht2 ha2]
  simp only [hlin, linearPixelToCoord, DataPlot.mk.injEq, QCPRange.mk.injEq, true_and]
  constructor <;> ring

/-- C19 (pan is path-independent and the grabbed point follows the
cursor).  On a linear time axis over a fixed pixel extent, with a shell
that applies each window it is handed, for a Pan drag anchored at the pixel
`a`: after a move to the pixel `c` the coordinate under `c` is the
coordinate that was under `a` before the move; and for every sequence of
intermediate pixels the state, hence the window, after moving through them
and then to `c` is the state after the single move to `c`. -/
theorem pan_path_independent (ctx : PlotContext K) (left width : K)
    (hlin : ctx.pixelToCoord = linearPixelToCoord left width) (s : DataPlot K)
    (hd : s.m_dragging = true) (moves : List (MainWindow K × QPoint))
    (hm : ∀ e ∈ moves, e.1.tool = Tool.Pan ∧ ∀ r, e.1.onSetRange r = some r)
    (mw : MainWindow K) (c : QPoint) (ht : mw.tool = Tool.Pan)
    (ha : ∀ r, mw.onSetRange r = some r) :
    ctx.pixelToCoord (DataPlot.mouseMoveEvent ctx mw s c).1.xRange c.x =
      ctx.pixelToCoord s.xRange s.m_beginPos.x ∧
    (DataPlot.run ctx s ((moves ++ [(mw, c)]).map fun e => (e.1, Event.move e.2))).1 =
      (DataPlot.mouseMoveEvent ctx mw s c).1 ∧
    (DataPlot.run ctx s ((moves ++ [(mw, c)]).map fun e => (e.1, Event.move e.2))).1.xRange =
      (DataPlot.mouseMoveEvent ctx mw s c).1.xRange := by
  have hpath : (DataPlot.run ctx s ((moves ++ [(mw, c)]).map
      fun e => (e.1, Event.move e.2))).1 = (DataPlot.mouseMoveEvent ctx mw s c).1 := by
    induction moves generalizing s with
    | nil => simp [DataPlot.run, DataPlot.handle]
    | cons e moves ih =>
      obtain ⟨mw1, c1⟩ := e
      obtain ⟨ht1, ha1⟩ := hm (mw1, c1) (List.mem_cons_self _ _)
      have hd1 : (DataPlot.mouseMoveEvent ctx mw1 s c1).1.m_dragging = true := by
        rw [mouseMoveEvent_pan_applied ctx mw1 s c1 hd ht1 ha1]
      rw [List.cons_append, List.map_cons, run_cons]
      simp only [DataPlot.handle]
      rw [ih _ hd1 (fun e he => hm e (List.mem_cons_of_mem _ he))]
      exact mouseMoveEvent_pan_twice ctx left width hlin mw1 mw s c1 c hd ht1 ha1 ht ha
  refine ⟨?_, hpath, by rw [hpath]⟩
  rw [mouseMoveEvent_pan_applied ctx mw s c hd ht ha]
  simp only [hlin, linearPixelToCoord]
  ring

/-- C19 on the window [-1, 11] over 200 pixels, Pan drag anchored at pixel
50 (t = 2): moving through the pixels 80 and 20 to the pixel 100 leaves the
window [-4, 8], like the single move to the pixel 100; and pixel 100 is
then at t = 2. -/
theorem pan_path_independent_witness :
    (DataPlot.run Scenario.ctx (Scenario.dragging ⟨50, 10⟩ (-1) 11)
      (([(Scenario.shell Tool.Pan [], (⟨80, 30⟩ : QPoint)),
          (Scenario.shell Tool.Pan [], (⟨20, 5⟩ : QPoint))] ++
        [(Scenario.shell Tool.Pan [], (⟨100, 20⟩ : QPoint))]).map
        fun e => (e.1, Event.move e.2))).1 =
      { m_dragging := true, m_beginPos := ⟨100, 20⟩, m_cursorPos := ⟨100, 20⟩,
        xRange := ⟨-4, 8⟩ } ∧
    Scenario.ctx.pixelToCoord ⟨-4, 8⟩ 100 = 2 := by
  have h := pan_path_independent Scenario.ctx 0 200 rfl (Scenario.dragging ⟨50, 10⟩ (-1) 11) rfl
    [(Scenario.shell Tool.Pan [], (⟨80, 30⟩ : QPoint)),
      (Scenario.shell Tool.Pan [], (⟨20, 5⟩ : QPoint))]
    (by simp [Scenario.shell]) (Scenario.shell Tool.Pan []) ⟨100, 20⟩ rfl (fun _ => rfl)
  refine ⟨?_, ?_⟩
  · rw [h.2.1]
    simp [DataPlot.mouseMoveEvent, DataPlot.afterShellSetRange, DataPlot.setRange,
      Scenario.ctx, Scenario.shell, Scenario.dragging, linearPixelToCoord]
    norm_num
  · simp [Scenario.ctx, linearPixelToCoord]
    norm_num

end Pan

end FlySight
